import Mathlib

/-!
CoinQ network synchronisation (`CoinQ_netsync.cpp`).

A shallow embedding of `CoinQ::Network::NetworkSync`: the peer handlers registered in the
constructor and the caller-facing member functions, as pure functions from a state to a new
state plus the ordered list of observable events (notifications, peer calls, mutating block
tree calls).

The collaborators whose code is not part of `CoinQ_netsync.cpp` (the block tree
`CoinQBlockTreeMem`, the `Peer`, `Coin::PartialMerkleTree`) are parameters: an `Env` gives,
for an arbitrary tree state `T` and peer state `P`, the result of every call the source makes
on them, including whether the call throws.
-/

namespace CoinQ



/-! ## Data model -/

/-- Byte strings (`bytes_t`, `uchar_vector`). -/
abbrev bytes_t := List Nat

/-- `Coin::CoinBlockHeader`; `hashLittleEndian` is the value of `getHashLittleEndian()`. -/
structure CoinBlockHeader where
  version : Nat
  prevBlockHash : bytes_t
  merkleRoot : bytes_t
  timestamp : Nat
  bits : Nat
  nonce : Nat
  hashLittleEndian : bytes_t
deriving DecidableEq, Repr

/-- `ChainHeader`: a block header with its place in the tree (`height` is a C++ `int`). -/
structure ChainHeader where
  blockHeader : CoinBlockHeader
  inBestChain : Bool
  height : Int
  chainWork : Nat
deriving DecidableEq, Repr

/-- `Coin::Transaction`; `hashLittleEndian` is the value of `getHashLittleEndian()`. -/
structure Transaction where
  hashLittleEndian : bytes_t
  body : bytes_t
deriving DecidableEq, Repr

/-- `Coin::MerkleBlock`. -/
structure MerkleBlock where
  blockHeader : CoinBlockHeader
  nTxs : Nat
  hashes : List bytes_t
  flags : bytes_t
deriving DecidableEq, Repr

/-- `ChainMerkleBlock(merkleBlock, inBestChain, height, chainWork)`. -/
structure ChainMerkleBlock where
  merkleBlock : MerkleBlock
  inBestChain : Bool
  height : Int
  chainWork : Nat
deriving DecidableEq, Repr

/-- `Coin::CoinBlock`. -/
structure CoinBlock where
  blockHeader : CoinBlockHeader
  txs : List Transaction
deriving DecidableEq, Repr

/-- Inventory type `MSG_TX` of the wire protocol. -/
def MSG_TX : Nat := 1

/-- Inventory type `MSG_BLOCK` of the wire protocol. -/
def MSG_BLOCK : Nat := 2

/-- Inventory type `MSG_FILTERED_BLOCK` of the wire protocol. -/
def MSG_FILTERED_BLOCK : Nat := 3

/-- `Coin::InventoryItem`. -/
structure InventoryItem where
  itemType : Nat
  hash : bytes_t
deriving DecidableEq, Repr

/-- `Coin::BloomFilter`, as far as the synchroniser reads it. -/
structure BloomFilter where
  isSet : Bool
  nHashFuncs : Nat
  nTweak : Nat
  nFlags : Nat
  filter : bytes_t
deriving DecidableEq, Repr

/-- `CoinQ::CoinParams`, as far as the synchroniser reads it. -/
structure CoinParams where
  magic_bytes : Nat
  protocol_version : Nat
  default_port : String
  genesis_block : CoinBlockHeader
deriving DecidableEq, Repr

/-- The notifications of the observer surface (`notifyXxx`). -/
inductive Notification where
  | started
  | stopped
  | «open»
  | close
  | timeout
  | connectionError (msg : String)
  | protocolError (msg : String)
  | blockTreeError (msg : String)
  | blockTreeChanged
  | status (msg : String)
  | fetchingHeaders
  | headersSynched
  | fetchingBlocks
  | blocksSynched
  | merkleBlock (block : ChainMerkleBlock)
  | merkleTx (block : ChainMerkleBlock) (tx : Transaction) (index : Nat) (count : Nat)
  | block (b : CoinBlock)
  | newTx (tx : Transaction)
deriving DecidableEq, Repr

/-- The calls the synchroniser makes on `m_peer`. -/
inductive PeerCall where
  | set (host : String) (port : String) (magic : Nat) (version : Nat) (userAgent : String)
      (startHeight : Nat) (relay : Bool)
  | start
  | stop
  | sendFilterLoad (nHashFuncs : Nat) (nTweak : Nat) (nFlags : Nat) (filter : bytes_t)
  | sendGetData (items : List InventoryItem)
  | sendTx (tx : Transaction)
  | getHeaders (locatorHashes : List bytes_t)
  | getFilteredBlock (hash : bytes_t)
  | getTx (hash : bytes_t)
  | getTxs (hashes : List bytes_t)
  | getMempool
deriving DecidableEq, Repr

/-- The mutating calls the synchroniser makes on `m_blockTree`. -/
inductive TreeCall where
  | insertHeader (header : CoinBlockHeader)
  | flushToFile (file : String)
  | loadFromFile (file : String) (checkProofOfWork : Bool)
  | clear
  | setGenesisBlock (header : CoinBlockHeader)
deriving DecidableEq, Repr

/-- One observable event of a handler or member function, in program order. -/
inductive Event where
  | notify (n : Notification)
  | peer (c : PeerCall)
  | tree (c : TreeCall)
deriving DecidableEq, Repr

/-- The collaborators of the synchroniser. A call that can throw returns the message of the
exception (`Except.error e`, or `some e` for a `void` call); mutating calls return the new
collaborator state also when they throw. -/
structure Env (T P : Type) where
  /-- `m_blockTree.hasHeader(hash)` -/
  hasHeader : T → bytes_t → Bool
  /-- `m_blockTree.insertHeader(header)`: `true` when the best chain changed -/
  insertHeader : T → CoinBlockHeader → Except String Bool × T
  /-- `m_blockTree.getHeader(hash)` -/
  getHeader : T → bytes_t → Except String ChainHeader
  /-- `m_blockTree.getHeader(height)`, a negative height counting from the tip -/
  getHeaderAt : T → Int → Except String ChainHeader
  /-- `m_blockTree.getHeaderBefore(time)` -/
  getHeaderBefore : T → Nat → Except String ChainHeader
  /-- `m_blockTree.getLocatorHashes(n)` -/
  getLocatorHashes : T → Int → Except String (List bytes_t)
  /-- `m_blockTree.getBestHeight()` -/
  getBestHeight : T → Int
  /-- `m_blockTree.getTotalWork()` -/
  getTotalWork : T → Nat
  /-- `m_blockTree.flushToFile(file)` -/
  flushToFile : T → String → Option String × T
  /-- `m_blockTree.loadFromFile(file, checkProofOfWork, callback)` -/
  loadFromFile : T → String → Bool → Option String × T
  /-- `m_blockTree.clear()` -/
  clear : T → T
  /-- `m_blockTree.setGenesisBlock(header)` -/
  setGenesisBlock : T → CoinBlockHeader → Option String × T
  /-- any call on `m_peer` -/
  peer : P → PeerCall → Option String × P
  /-- `Coin::PartialMerkleTree tree(nTxs, hashes, flags, merkleRoot)` followed by
  `tree.getTxHashesLittleEndianVector()`; the constructor is what can throw -/
  getTxHashesLittleEndianVector : MerkleBlock → Except String (List bytes_t)

/-- The data members of `NetworkSync` (the mutexes and the I/O thread apart). The widths of
the two transaction counters are declared in a header that is not part of the source; they
are natural numbers here. `m_lastRequestedBlockHeight` is a `uint32_t`. -/
structure NetworkSync (T P : Type) where
  m_coinParams : CoinParams
  m_bStarted : Bool
  m_peer : P
  m_blockTreeFile : String
  m_blockTree : T
  m_bConnected : Bool
  m_bFetchingHeaders : Bool
  m_bHeadersSynched : Bool
  m_bFetchingBlocks : Bool
  m_bBlocksFetched : Bool
  m_bBlocksSynched : Bool
  m_lastRequestedBlockHeight : Nat
  m_bloomFilter : BloomFilter
  m_currentMerkleBlock : ChainMerkleBlock
  m_currentMerkleTxHashes : List bytes_t
  m_currentMerkleTxIndex : Nat
  m_currentMerkleTxCount : Nat

/-- What a handler or member function leaves behind: the new state, the events in program
order, and the exception that left the function, if any. -/
structure Result (T P : Type) where
  state : NetworkSync T P
  events : List Event
  thrown : Option String

/-- The notifications among a list of events, in order. -/
def emissions : List Event → List Notification
  | [] => []
  | Event.notify n :: rest => n :: emissions rest
  | _ :: rest => emissions rest

/-- The peer calls among a list of events, in order. -/
def peerCalls : List Event → List PeerCall
  | [] => []
  | Event.peer c :: rest => c :: peerCalls rest
  | _ :: rest => peerCalls rest

/-- The mutating block tree calls among a list of events, in order. -/
def treeCalls : List Event → List TreeCall
  | [] => []
  | Event.tree c :: rest => c :: treeCalls rest
  | _ :: rest => treeCalls rest

/-- Conversion to `uint32_t`. -/
def toU32 (i : Int) : Nat := (i % 4294967296).toNat

/-- The value a 32-bit `int` holds after an arithmetic result: results outside
`-2147483648 .. 2147483647` wrap around. -/
def wrapInt32 (i : Int) : Int := (i + 2147483648) % 4294967296 - 2147483648

/-- One byte as two lower-case hexadecimal digits. -/
def hexByte (b : Nat) : String :=
  String.mk [Nat.digitChar ((b / 16) % 16), Nat.digitChar (b % 16)]

/-- `uchar_vector::getHex()`. -/
def getHex (bytes : bytes_t) : String :=
  String.join (bytes.map hexByte)

variable {T P : Type}

/-! ## Peer handlers registered in the constructor -/

/-- The `catch` of the transaction handler: `notifyProtocolError(e.what())`. -/
def txProtocolError (s : NetworkSync T P) (msg : String) : Result T P :=
  { state := s, events := [Event.notify (Notification.protocolError msg)], thrown := none }

/-- The handler given to `m_peer.subscribeTx` (source lines 135-174). -/
def onTx (s : NetworkSync T P) (tx : Transaction) : Result T P :=
  if !s.m_bConnected then { state := s, events := [], thrown := none }
  else if s.m_bBlocksSynched then
    { state := s, events := [Event.notify (Notification.newTx tx)], thrown := none }
  else if s.m_bFetchingBlocks then
    match s.m_currentMerkleTxHashes with
    | [] =>
      txProtocolError s
        "Should not be receiving transactions before blocks when fetching blocks."
    | front :: rest =>
      if front != tx.hashLittleEndian then
        txProtocolError s "Transaction received out of order."
      else
        let s1 := { s with m_currentMerkleTxHashes := rest,
                           m_currentMerkleTxIndex := s.m_currentMerkleTxIndex + 1 }
        let ev := Event.notify (Notification.merkleTx s.m_currentMerkleBlock tx
          s.m_currentMerkleTxIndex s.m_currentMerkleTxCount)
        if s1.m_bBlocksFetched && s1.m_currentMerkleTxIndex == s1.m_currentMerkleTxCount then
          { state := { s1 with m_bBlocksSynched := true },
            events := [ev, Event.notify Notification.blocksSynched], thrown := none }
        else { state := s1, events := [ev], thrown := none }
  else
    txProtocolError s
      "Should not be receiving transactions if not synched and not fetching blocks."

/-- The `for` loop of the inventory handler: the items pushed onto `getData.items`, given
the items already there. -/
def invLoop (s : NetworkSync T P) : List InventoryItem → List InventoryItem → List InventoryItem
  | [], acc => acc
  | item :: rest, acc =>
    if item.itemType = MSG_TX then
      if s.m_bBlocksSynched then invLoop s rest (acc ++ [item]) else invLoop s rest acc
    else if item.itemType = MSG_BLOCK then
      if s.m_bHeadersSynched then
        invLoop s rest (acc ++ [InventoryItem.mk MSG_FILTERED_BLOCK item.hash])
      else invLoop s rest acc
    else invLoop s rest acc

/-- The handler given to `m_peer.subscribeInv` (source lines 104-133). An exception of
`m_peer.send` is not caught here. -/
def onInv (env : Env T P) (s : NetworkSync T P) (items : List InventoryItem) : Result T P :=
  if !s.m_bConnected then { state := s, events := [], thrown := none }
  else
    let getData := invLoop s items []
    if !getData.isEmpty then
      let r := env.peer s.m_peer (PeerCall.sendGetData getData)
      { state := { s with m_peer := r.2 }, events := [Event.peer (PeerCall.sendGetData getData)],
        thrown := r.1 }
    else { state := s, events := [], thrown := none }

/-- `NetworkSync::stop()` (source lines 599-614). An exception of `m_peer.stop()` leaves the
function before `notifyStopped()`. -/
def NetworkSync.stop (env : Env T P) (s : NetworkSync T P) : Result T P :=
  if !s.m_bStarted then { state := s, events := [], thrown := none }
  else
    let s1 := { s with m_bConnected := false, m_bStarted := false,
                       m_bFetchingHeaders := false, m_bFetchingBlocks := false }
    match env.peer s1.m_peer PeerCall.stop with
    | (some e, p1) =>
      { state := { s1 with m_peer := p1 }, events := [Event.peer PeerCall.stop],
        thrown := some e }
    | (none, p1) =>
      { state := { s1 with m_peer := p1 },
        events := [Event.peer PeerCall.stop, Event.notify Notification.stopped],
        thrown := none }

/-- The `FilterLoadMessage` built from `m_bloomFilter`. -/
def filterLoad (f : BloomFilter) : PeerCall :=
  PeerCall.sendFilterLoad f.nHashFuncs f.nTweak f.nFlags f.filter

/-- The end of the `try` block of the open handler: `m_blockTree.getLocatorHashes(-1)` and
`m_peer.getHeaders`, after the events `pre`. -/
def openGetHeaders (env : Env T P) (s : NetworkSync T P) (pre : List Event) : Result T P :=
  match env.getLocatorHashes s.m_blockTree (-1) with
  | Except.error e =>
    { state := s, events := pre ++ [Event.notify (Notification.blockTreeError e)],
      thrown := none }
  | Except.ok locator =>
    match env.peer s.m_peer (PeerCall.getHeaders locator) with
    | (some e, p1) =>
      { state := { s with m_peer := p1 },
        events := pre ++ [Event.peer (PeerCall.getHeaders locator),
          Event.notify (Notification.blockTreeError e)],
        thrown := none }
    | (none, p1) =>
      { state := { s with m_peer := p1 },
        events := pre ++ [Event.peer (PeerCall.getHeaders locator)], thrown := none }

/-- The handler given to `m_peer.subscribeOpen` (source lines 60-81). -/
def onOpen (env : Env T P) (s : NetworkSync T P) : Result T P :=
  let s1 := { s with m_bConnected := true }
  if s1.m_bloomFilter.isSet then
    match env.peer s1.m_peer (filterLoad s1.m_bloomFilter) with
    | (some e, p1) =>
      { state := { s1 with m_peer := p1 },
        events := [Event.notify Notification.open, Event.peer (filterLoad s1.m_bloomFilter),
          Event.notify (Notification.blockTreeError e)],
        thrown := none }
    | (none, p1) =>
      openGetHeaders env { s1 with m_peer := p1 }
        [Event.notify Notification.open, Event.peer (filterLoad s1.m_bloomFilter)]
  else openGetHeaders env s1 [Event.notify Notification.open]

/-- The handler given to `m_peer.subscribeClose` (source lines 83-87). -/
def onClose (env : Env T P) (s : NetworkSync T P) : Result T P :=
  let r := NetworkSync.stop env s
  match r.thrown with
  | some e => { state := r.state, events := r.events, thrown := some e }
  | none =>
    { state := r.state, events := r.events ++ [Event.notify Notification.close],
      thrown := none }

/-- The handler given to `m_peer.subscribeTimeout` (source lines 89-92). -/
def onTimeout (s : NetworkSync T P) : Result T P :=
  { state := s, events := [Event.notify Notification.timeout], thrown := none }

/-- The handler given to `m_peer.subscribeConnectionError` (source lines 94-97). -/
def onConnectionError (s : NetworkSync T P) (error : String) : Result T P :=
  { state := s, events := [Event.notify (Notification.connectionError error)], thrown := none }

/-- The handler given to `m_peer.subscribeProtocolError` (source lines 99-102). -/
def onProtocolError (s : NetworkSync T P) (error : String) : Result T P :=
  { state := s, events := [Event.notify (Notification.protocolError error)], thrown := none }

/-- What the `for` loop of the headers handler leaves behind. -/
structure InsertLoop (T : Type) where
  tree : T
  headersSynched : Bool
  events : List Event
  thrown : Option String

/-- The `for` loop of the headers handler (source lines 188-205): every header is inserted
in order; an insertion that reports a new best chain clears `m_bHeadersSynched`; the first
insertion that throws notifies a block tree error and leaves the loop with the exception. -/
def insertHeaders (env : Env T P) : List CoinBlockHeader → T → Bool → InsertLoop T
  | [], t, hs => { tree := t, headersSynched := hs, events := [], thrown := none }
  | item :: rest, t, hs =>
    match env.insertHeader t item with
    | (Except.ok b, t1) =>
      let r := insertHeaders env rest t1 (if b then false else hs)
      { tree := r.tree, headersSynched := r.headersSynched,
        events := Event.tree (TreeCall.insertHeader item) :: r.events, thrown := r.thrown }
    | (Except.error e, t1) =>
      { tree := t1, headersSynched := hs,
        events := [Event.tree (TreeCall.insertHeader item),
          Event.notify (Notification.blockTreeError
            ("Block tree insertion error for block " ++ getHex item.hashLittleEndian
              ++ ": " ++ e))],
        thrown := some e }

/-- The status line built after a batch of headers and after a load. -/
def bestHeightStatus (env : Env T P) (t : T) : String :=
  "Best Height: " ++ toString (env.getBestHeight t) ++ " / " ++ "Total Work: "
    ++ toString (env.getTotalWork t)

/-- The handler given to `m_peer.subscribeHeaders` (source lines 176-237). Every exception
inside the `try` block ends in the `catch` that clears `m_bFetchingHeaders`. -/
def onHeaders (env : Env T P) (s : NetworkSync T P) (headers : List CoinBlockHeader) :
    Result T P :=
  if !s.m_bConnected then { state := s, events := [], thrown := none }
  else if headers.length > 0 then
    let r := insertHeaders env headers s.m_blockTree s.m_bHeadersSynched
    let s1 := { s with m_bFetchingHeaders := true, m_blockTree := r.tree,
                       m_bHeadersSynched := r.headersSynched }
    let ev1 := Event.notify Notification.fetchingHeaders :: r.events
    match r.thrown with
    | some _ => { state := { s1 with m_bFetchingHeaders := false }, events := ev1, thrown := none }
    | none =>
      let ev2 := ev1 ++ [Event.notify Notification.blockTreeChanged,
        Event.notify (Notification.status (bestHeightStatus env s1.m_blockTree))]
      match env.getLocatorHashes s1.m_blockTree 1 with
      | Except.error _ =>
        { state := { s1 with m_bFetchingHeaders := false }, events := ev2, thrown := none }
      | Except.ok locator =>
        match env.peer s1.m_peer (PeerCall.getHeaders locator) with
        | (some _, p1) =>
          { state := { s1 with m_peer := p1, m_bFetchingHeaders := false },
            events := ev2 ++ [Event.peer (PeerCall.getHeaders locator)], thrown := none }
        | (none, p1) =>
          { state := { s1 with m_peer := p1 },
            events := ev2 ++ [Event.peer (PeerCall.getHeaders locator)], thrown := none }
  else
    let ev1 := [Event.notify (Notification.status "Flushing block chain to file..."),
      Event.tree (TreeCall.flushToFile s.m_blockTreeFile)]
    match env.flushToFile s.m_blockTree s.m_blockTreeFile with
    | (some _, t1) =>
      { state := { s with m_blockTree := t1, m_bFetchingHeaders := false }, events := ev1,
        thrown := none }
    | (none, t1) =>
      { state := { s with m_blockTree := t1, m_bHeadersSynched := true },
        events := ev1 ++ [Event.notify (Notification.status "Done flushing block chain to file"),
          Event.notify Notification.headersSynched],
        thrown := none }

/-- The `catch` of the block handler: `notifyStatus("NetworkSync block handler error.")`. -/
def blockHandlerError (s : NetworkSync T P) (pre : List Event) : Result T P :=
  { state := s,
    events := pre ++ [Event.notify (Notification.status "NetworkSync block handler error.")],
    thrown := none }

/-- The handler given to `m_peer.subscribeBlock` (source lines 239-268). -/
def onBlock (env : Env T P) (s : NetworkSync T P) (block : CoinBlock) : Result T P :=
  if !s.m_bConnected then { state := s, events := [], thrown := none }
  else if env.hasHeader s.m_blockTree block.blockHeader.hashLittleEndian then
    { state := s, events := [Event.notify (Notification.block block)], thrown := none }
  else
    match env.insertHeader s.m_blockTree block.blockHeader with
    | (Except.error _, t1) =>
      blockHandlerError { s with m_blockTree := t1 }
        [Event.tree (TreeCall.insertHeader block.blockHeader)]
    | (Except.ok false, t1) =>
      { state := { s with m_blockTree := t1 },
        events := [Event.tree (TreeCall.insertHeader block.blockHeader)], thrown := none }
    | (Except.ok true, t1) =>
      let ev1 := [Event.tree (TreeCall.insertHeader block.blockHeader),
        Event.notify (Notification.status "Flushing block chain to file..."),
        Event.tree (TreeCall.flushToFile s.m_blockTreeFile)]
      match env.flushToFile t1 s.m_blockTreeFile with
      | (some _, t2) => blockHandlerError { s with m_blockTree := t2 } ev1
      | (none, t2) =>
        { state := { s with m_blockTree := t2, m_bHeadersSynched := true },
          events := ev1 ++ [Event.notify (Notification.status "Done flushing block chain to file"),
            Event.notify Notification.headersSynched, Event.notify (Notification.block block)],
          thrown := none }

/-- The outer `catch` of the Merkle block handler: `notifyProtocolError(e.what())`. -/
def merkleProtocolError (s : NetworkSync T P) (pre : List Event) (msg : String) :
    Result T P :=
  { state := s, events := pre ++ [Event.notify (Notification.protocolError msg)],
    thrown := none }

/-- The status line before a filtered block is requested from the Merkle block handler. -/
def askingForBlockStatus (nextHeader : ChainHeader) : String :=
  "Asking for block " ++ getHex nextHeader.blockHeader.hashLittleEndian ++ " / height: "
    ++ toString nextHeader.height

/-- The second half of the Merkle block handler (source lines 310-353), reached when the
header is in the tree; `pre` are the events of the first half. `header.height + 1` is
computed in `int`. -/
def merkleBlockContent (env : Env T P) (s : NetworkSync T P) (pre : List Event)
    (merkleBlock : MerkleBlock) : Result T P :=
  if !s.m_bFetchingBlocks then { state := s, events := pre, thrown := none }
  else
    match env.getTxHashesLittleEndianVector merkleBlock with
    | Except.error e => merkleProtocolError s pre e
    | Except.ok txhashes =>
      match env.getHeader s.m_blockTree merkleBlock.blockHeader.hashLittleEndian with
      | Except.error e => merkleProtocolError s pre e
      | Except.ok header =>
        let s1 := { s with
          m_currentMerkleBlock := ChainMerkleBlock.mk merkleBlock true header.height
            header.chainWork,
          m_currentMerkleTxHashes := s.m_currentMerkleTxHashes ++ txhashes,
          m_currentMerkleTxIndex := 0,
          m_currentMerkleTxCount := txhashes.length }
        let ev1 := pre ++ [Event.notify (Notification.merkleBlock s1.m_currentMerkleBlock)]
        let bestHeight := toU32 (env.getBestHeight s1.m_blockTree)
        if bestHeight > toU32 header.height then
          match env.getHeaderAt s1.m_blockTree (wrapInt32 (header.height + 1)) with
          | Except.error e => merkleProtocolError s1 ev1 e
          | Except.ok nextHeader =>
            let s2 := { s1 with m_lastRequestedBlockHeight := toU32 nextHeader.height }
            let ev2 := ev1 ++ [Event.notify (Notification.status (askingForBlockStatus nextHeader)),
              Event.peer (PeerCall.getFilteredBlock nextHeader.blockHeader.hashLittleEndian)]
            match env.peer s2.m_peer
              (PeerCall.getFilteredBlock nextHeader.blockHeader.hashLittleEndian) with
            | (some e, p1) =>
              { state := { s2 with m_peer := p1 },
                events := ev2 ++ [Event.notify (Notification.connectionError e)],
                thrown := none }
            | (none, p1) => { state := { s2 with m_peer := p1 }, events := ev2, thrown := none }
        else if bestHeight == s1.m_lastRequestedBlockHeight
            && bestHeight == toU32 header.height then
          let s2 := { s1 with m_bBlocksFetched := true }
          if s2.m_currentMerkleTxHashes.isEmpty then
            { state := { s2 with m_bBlocksSynched := true },
              events := ev1 ++ [Event.notify Notification.blocksSynched], thrown := none }
          else { state := s2, events := ev1, thrown := none }
        else { state := s1, events := ev1, thrown := none }

/-- The handler given to `m_peer.subscribeMerkleBlock` (source lines 270-359). -/
def onMerkleBlock (env : Env T P) (s : NetworkSync T P) (merkleBlock : MerkleBlock) :
    Result T P :=
  if !s.m_bConnected then { state := s, events := [], thrown := none }
  else if !s.m_currentMerkleTxHashes.isEmpty then
    merkleProtocolError s []
      "Block was received before getting transactions from last block."
  else if env.hasHeader s.m_blockTree merkleBlock.blockHeader.hashLittleEndian then
    merkleBlockContent env s [] merkleBlock
  else
    let evI := Event.tree (TreeCall.insertHeader merkleBlock.blockHeader)
    match env.insertHeader s.m_blockTree merkleBlock.blockHeader with
    | (Except.error e, t1) => merkleProtocolError { s with m_blockTree := t1 } [evI] e
    | (Except.ok true, t1) =>
      let ev1 := [evI, Event.notify (Notification.status "Flushing block chain to file..."),
        Event.tree (TreeCall.flushToFile s.m_blockTreeFile)]
      match env.flushToFile t1 s.m_blockTreeFile with
      | (some e, t2) => merkleProtocolError { s with m_blockTree := t2 } ev1 e
      | (none, t2) =>
        merkleBlockContent env
          { s with m_blockTree := t2, m_bHeadersSynched := true, m_bBlocksFetched := false,
                   m_bBlocksSynched := false }
          (ev1 ++ [Event.notify (Notification.status "Done flushing block chain to file"),
            Event.notify Notification.headersSynched])
          merkleBlock
    | (Except.ok false, t1) =>
      let s1 := { s with m_blockTree := t1, m_bHeadersSynched := false,
                         m_bBlocksSynched := false, m_bBlocksFetched := false,
                         m_bFetchingBlocks := false }
      match env.getLocatorHashes s1.m_blockTree (-1) with
      | Except.error e =>
        { state := s1, events := [evI, Event.notify (Notification.blockTreeError e)],
          thrown := none }
      | Except.ok locator =>
        match env.peer s1.m_peer (PeerCall.getHeaders locator) with
        | (some e, p1) =>
          { state := { s1 with m_peer := p1 },
            events := [evI, Event.peer (PeerCall.getHeaders locator),
              Event.notify (Notification.blockTreeError e)],
            thrown := none }
        | (none, p1) =>
          { state := { s1 with m_peer := p1 },
            events := [evI, Event.peer (PeerCall.getHeaders locator)], thrown := none }

/-! ## Member functions -/

/-- `NetworkSync::setCoinParams` (source lines 370-377). -/
def NetworkSync.setCoinParams (s : NetworkSync T P) (coinParams : CoinParams) : Result T P :=
  if s.m_bStarted then
    { state := s, events := [],
      thrown := some "NetworkSync::setCoinParams() - must be stopped to set coin parameters." }
  else { state := { s with m_coinParams := coinParams }, events := [], thrown := none }

/-- `NetworkSync::loadHeaders` (source lines 379-405). An exception of `setGenesisBlock`
leaves the function. -/
def NetworkSync.loadHeaders (env : Env T P) (s : NetworkSync T P) (blockTreeFile : String)
    (bCheckProofOfWork : Bool) : Result T P :=
  let s0 := { s with m_blockTreeFile := blockTreeFile }
  let evL := Event.tree (TreeCall.loadFromFile blockTreeFile bCheckProofOfWork)
  match env.loadFromFile s0.m_blockTree blockTreeFile bCheckProofOfWork with
  | (none, t1) =>
    { state := { s0 with m_blockTree := t1, m_bHeadersSynched := true },
      events := [evL, Event.notify (Notification.status (bestHeightStatus env t1)),
        Event.notify Notification.headersSynched],
      thrown := none }
  | (some e, t1) =>
    let ev1 := [evL, Event.notify (Notification.blockTreeError e), Event.tree TreeCall.clear,
      Event.tree (TreeCall.setGenesisBlock s0.m_coinParams.genesis_block)]
    match env.setGenesisBlock (env.clear t1) s0.m_coinParams.genesis_block with
    | (some e2, t2) => { state := { s0 with m_blockTree := t2 }, events := ev1, thrown := some e2 }
    | (none, t2) =>
      { state := { s0 with m_blockTree := t2, m_bHeadersSynched := true },
        events := ev1 ++ [Event.notify (Notification.status
            "Block tree file not found. A new one will be created."),
          Event.notify Notification.headersSynched],
        thrown := none }

/-- `NetworkSync::getBestHeight` (source lines 456-459). -/
def NetworkSync.getBestHeight (env : Env T P) (s : NetworkSync T P) : Int :=
  env.getBestHeight s.m_blockTree

/-- The `for` loop of `syncBlocks` over the locator hashes (source lines 475-493): the first
header found that is in the best chain, and the status notifications of the lookups that
threw before it. -/
def findLocatorHeader (env : Env T P) (t : T) : List bytes_t → Option ChainHeader × List Event
  | [] => (none, [])
  | hash :: rest =>
    match env.getHeader t hash with
    | Except.ok header =>
      if header.inBestChain then (some header, []) else findLocatorHeader env t rest
    | Except.error e =>
      let r := findLocatorHeader env t rest
      (r.1, Event.notify (Notification.status e) :: r.2)

/-- The first status line of `syncBlocks`. -/
def resynchingStatus (nextBlockRequestHeight : Int) (bestHeight : Int) : String :=
  "Resynching blocks " ++ toString nextBlockRequestHeight ++ " - " ++ toString bestHeight

/-- The end of `syncBlocks` (source lines 508-529), once the next height to request is
known. `status.clear()` resets the stream's error flags and not its text, so the second
status line continues the first. -/
def syncBlocksFrom (env : Env T P) (s : NetworkSync T P) (pre : List Event)
    (bestHeader : ChainHeader) (nextBlockRequestHeight : Int) : Result T P :=
  if bestHeader.height >= nextBlockRequestHeight then
    let s1 := { s with m_bFetchingBlocks := true }
    let status1 := resynchingStatus nextBlockRequestHeight bestHeader.height
    let ev1 := pre ++ [Event.notify (Notification.status status1),
      Event.notify Notification.fetchingBlocks]
    match env.getHeaderAt s1.m_blockTree nextBlockRequestHeight with
    | Except.error e => { state := s1, events := ev1, thrown := some e }
    | Except.ok nextBlockRequestHeader =>
      let hash := nextBlockRequestHeader.blockHeader.hashLittleEndian
      let s2 := { s1 with m_lastRequestedBlockHeight := toU32 nextBlockRequestHeight }
      let ev2 := ev1 ++ [Event.notify (Notification.status
          (status1 ++ "Asking for block " ++ getHex hash)),
        Event.peer (PeerCall.getFilteredBlock hash)]
      let r := env.peer s2.m_peer (PeerCall.getFilteredBlock hash)
      { state := { s2 with m_peer := r.2 }, events := ev2, thrown := r.1 }
  else
    { state := { s with m_bBlocksSynched := true },
      events := pre ++ [Event.notify Notification.blocksSynched], thrown := none }

/-- `NetworkSync::syncBlocks` (source lines 461-530). The local `nextBlockRequestHeight` is
an `int`, so `header.height + 1` is computed in `int`. -/
def NetworkSync.syncBlocks (env : Env T P) (s : NetworkSync T P) (locatorHashes : List bytes_t)
    (startTime : Nat) : Result T P :=
  if !s.m_bConnected then
    { state := s, events := [],
      thrown := some "NetworkSync::syncBlocks() - must connect before synching." }
  else
    let s1 := { s with m_bFetchingBlocks := false, m_bBlocksFetched := false }
    let found := findLocatorHeader env s1.m_blockTree locatorHashes
    match env.getHeaderAt s1.m_blockTree (-1) with
    | Except.error e => { state := s1, events := found.2, thrown := some e }
    | Except.ok bestHeader =>
      match found.1 with
      | some header =>
        syncBlocksFrom env s1 found.2 bestHeader (wrapInt32 (header.height + 1))
      | none =>
        match env.getHeaderBefore s1.m_blockTree startTime with
        | Except.error e => { state := s1, events := found.2, thrown := some e }
        | Except.ok header => syncBlocksFrom env s1 found.2 bestHeader header.height

/-- `NetworkSync::stopSyncBlocks` (source lines 564-571). -/
def NetworkSync.stopSyncBlocks (s : NetworkSync T P) : Result T P :=
  if !s.m_bFetchingBlocks then { state := s, events := [], thrown := none }
  else { state := { s with m_bFetchingBlocks := false }, events := [], thrown := none }

/-- `NetworkSync::start(host, port)` (source lines 573-590). An exception of `m_peer.set`
or `m_peer.start` leaves the function before `notifyStarted()`. -/
def NetworkSync.start (env : Env T P) (s : NetworkSync T P) (host : String) (port : String) :
    Result T P :=
  if s.m_bStarted then
    { state := s, events := [], thrown := some "NetworkSync::start() - already started." }
  else
    let port_ := if port.isEmpty then s.m_coinParams.default_port else port
    let s1 := { s with m_bStarted := true, m_bFetchingHeaders := false,
                       m_bFetchingBlocks := false }
    let setCall := PeerCall.set host port_ s1.m_coinParams.magic_bytes
      s1.m_coinParams.protocol_version "Wallet v0.1" 0 false
    match env.peer s1.m_peer setCall with
    | (some e, p1) =>
      { state := { s1 with m_peer := p1 }, events := [Event.peer setCall], thrown := some e }
    | (none, p1) =>
      match env.peer p1 PeerCall.start with
      | (some e, p2) =>
        { state := { s1 with m_peer := p2 },
          events := [Event.peer setCall, Event.peer PeerCall.start], thrown := some e }
      | (none, p2) =>
        { state := { s1 with m_peer := p2 },
          events := [Event.peer setCall, Event.peer PeerCall.start,
            Event.notify Notification.started],
          thrown := none }

/-- A member function that only forwards one call to `m_peer` (`sendTx`, `getTx`, `getTxs`,
`getMempool`, `getFilteredBlock`, source lines 616-639). -/
def NetworkSync.forward (env : Env T P) (s : NetworkSync T P) (call : PeerCall) : Result T P :=
  let r := env.peer s.m_peer call
  { state := { s with m_peer := r.2 }, events := [Event.peer call], thrown := r.1 }

/-- `NetworkSync::setBloomFilter` (source lines 641-649). -/
def NetworkSync.setBloomFilter (env : Env T P) (s : NetworkSync T P)
    (bloomFilter : BloomFilter) : Result T P :=
  let s1 := { s with m_bloomFilter := bloomFilter }
  if !s1.m_bloomFilter.isSet then { state := s1, events := [], thrown := none }
  else NetworkSync.forward env s1 (filterLoad s1.m_bloomFilter)

/-! ## Executions -/

/-- What can happen to a synchroniser: a call of a member function by the caller, or an
event delivered by the peer to one of the handlers. -/
inductive Input where
  | setCoinParams (coinParams : CoinParams)
  | setBloomFilter (bloomFilter : BloomFilter)
  | loadHeaders (blockTreeFile : String) (bCheckProofOfWork : Bool)
  | start (host : String) (port : String)
  | stop
  | syncBlocks (locatorHashes : List bytes_t) (startTime : Nat)
  | stopSyncBlocks
  | sendTx (tx : Transaction)
  | getTx (hash : bytes_t)
  | getTxs (hashes : List bytes_t)
  | getMempool
  | getFilteredBlock (hash : bytes_t)
  | onOpen
  | onClose
  | onTimeout
  | onConnectionError (error : String)
  | onProtocolError (error : String)
  | onInv (items : List InventoryItem)
  | onTx (tx : Transaction)
  | onHeaders (headers : List CoinBlockHeader)
  | onBlock (block : CoinBlock)
  | onMerkleBlock (merkleBlock : MerkleBlock)
deriving DecidableEq, Repr

/-- One call or one delivered event. -/
def step (env : Env T P) (s : NetworkSync T P) : Input → Result T P
  | Input.setCoinParams p => NetworkSync.setCoinParams s p
  | Input.setBloomFilter f => NetworkSync.setBloomFilter env s f
  | Input.loadHeaders file check => NetworkSync.loadHeaders env s file check
  | Input.start host port => NetworkSync.start env s host port
  | Input.stop => NetworkSync.stop env s
  | Input.syncBlocks locatorHashes startTime =>
    NetworkSync.syncBlocks env s locatorHashes startTime
  | Input.stopSyncBlocks => NetworkSync.stopSyncBlocks s
  | Input.sendTx tx => NetworkSync.forward env s (PeerCall.sendTx tx)
  | Input.getTx hash => NetworkSync.forward env s (PeerCall.getTx hash)
  | Input.getTxs hashes => NetworkSync.forward env s (PeerCall.getTxs hashes)
  | Input.getMempool => NetworkSync.forward env s PeerCall.getMempool
  | Input.getFilteredBlock hash => NetworkSync.forward env s (PeerCall.getFilteredBlock hash)
  | Input.onOpen => onOpen env s
  | Input.onClose => onClose env s
  | Input.onTimeout => onTimeout s
  | Input.onConnectionError e => onConnectionError s e
  | Input.onProtocolError e => onProtocolError s e
  | Input.onInv items => onInv env s items
  | Input.onTx tx => onTx s tx
  | Input.onHeaders headers => onHeaders env s headers
  | Input.onBlock block => onBlock env s block
  | Input.onMerkleBlock merkleBlock => onMerkleBlock env s merkleBlock

/-- A sequence of calls and delivered events, one after the other: the final state and all
events in order. An exception that leaves a member function goes to its caller; the object
stays as the function left it. -/
def run (env : Env T P) (s : NetworkSync T P) : List Input → NetworkSync T P × List Event
  | [] => (s, [])
  | i :: rest =>
    let r := step env s i
    let q := run env r.state rest
    (q.1, r.events ++ q.2)

/-- The state the constructor leaves (source lines 22-33): the six flags of the initialiser
list are false and the queue of expected hashes is empty. The members the initialiser list
does not mention (`m_bBlocksFetched`, `m_lastRequestedBlockHeight`, the two transaction
counters) are not constrained. -/
def isInitial (s : NetworkSync T P) : Bool :=
  !s.m_bStarted && !s.m_bConnected && !s.m_bFetchingHeaders && !s.m_bHeadersSynched
    && !s.m_bFetchingBlocks && !s.m_bBlocksSynched && s.m_currentMerkleTxHashes.isEmpty

/-! ## A concrete set of collaborators

The header tree and the peer are not part of `CoinQ_netsync.cpp`. The definitions of this
section give one concrete tree and peer, after the interface description of the
specification, on which the handlers can be run on concrete inputs. -/

/-- Modelled from the spec: the `HeaderTree` of the specification (code of
`CoinQBlockTreeMem` is missing), a set of chain headers in insertion order with the last
snapshot written and whether the snapshot file can be written. The `inBestChain` field of a
stored header is not used; it is computed on every query. -/
structure MemTree where
  headers : List ChainHeader
  snapshot : Option (List ChainHeader)
  writable : Bool
deriving DecidableEq, Repr

/-- Modelled from the spec: the work that a header with the given `bits` adds to the chain
(the proof-of-work target arithmetic is missing). -/
def MemTree.work (bits : Nat) : Nat := bits + 1

/-- Modelled from the spec: the stored header with the given hash, for the missing lookup of
`CoinQBlockTreeMem`. -/
def MemTree.find? (t : MemTree) (hash : bytes_t) : Option ChainHeader :=
  t.headers.find? (fun h => h.blockHeader.hashLittleEndian == hash)

/-- Modelled from the spec: the tip of the best chain of the missing tree, the header with
greatest chain work, ties broken by first-seen. -/
def MemTree.tip? (t : MemTree) : Option ChainHeader :=
  t.headers.foldl
    (fun best h =>
      match best with
      | none => some h
      | some b => if h.chainWork > b.chainWork then some h else some b)
    none

/-- Modelled from the spec: the path from the root to the header with the given hash in the
missing tree, following the previous-hash links for at most `fuel` headers. -/
def MemTree.pathTo (t : MemTree) : Nat → bytes_t → List ChainHeader
  | 0, _ => []
  | fuel + 1, hash =>
    match t.find? hash with
    | none => []
    | some h => MemTree.pathTo t fuel h.blockHeader.prevBlockHash ++ [h]

/-- Modelled from the spec: the best chain of the missing tree, the path from genesis to the
header with greatest chain work. -/
def MemTree.bestChain (t : MemTree) : List ChainHeader :=
  match t.tip? with
  | none => []
  | some tip => t.pathTo t.headers.length tip.blockHeader.hashLittleEndian

/-- Modelled from the spec: a stored header of the missing tree as queries return it, with
`in_best_chain` computed. -/
def MemTree.present (t : MemTree) (h : ChainHeader) : ChainHeader :=
  { h with
    inBestChain := t.bestChain.any
      (fun b => b.blockHeader.hashLittleEndian == h.blockHeader.hashLittleEndian) }

/-- Modelled from the spec: `has_header(hash)` of the missing tree. -/
def MemTree.hasHeader (t : MemTree) (hash : bytes_t) : Bool :=
  (t.find? hash).isSome

/-- Modelled from the spec: `insert_header(header)` of the missing tree. It fails when the
parent is missing and returns whether the insertion extended or replaced the best chain; a
header already present is left alone. -/
def MemTree.insertHeader (t : MemTree) (header : CoinBlockHeader) : Except String Bool × MemTree :=
  if t.hasHeader header.hashLittleEndian then (Except.ok false, t)
  else
    match t.find? header.prevBlockHash with
    | none => (Except.error "InvalidHeader: parent missing", t)
    | some parent =>
      let t1 := { t with
        headers := t.headers ++
          [ChainHeader.mk header false (parent.height + 1)
            (parent.chainWork + MemTree.work header.bits)] }
      match t1.tip? with
      | none => (Except.ok false, t1)
      | some tip =>
        (Except.ok (tip.blockHeader.hashLittleEndian == header.hashLittleEndian), t1)

/-- Modelled from the spec: `get_header(hash)` of the missing tree, failing with NotFound. -/
def MemTree.getHeader (t : MemTree) (hash : bytes_t) : Except String ChainHeader :=
  match t.find? hash with
  | none => Except.error "NotFound"
  | some h => Except.ok (t.present h)

/-- Modelled from the spec: `get_header(height)` of the missing tree on the best chain, a
negative height being an offset from the tip (`-1` is the tip). -/
def MemTree.getHeaderAt (t : MemTree) (height : Int) : Except String ChainHeader :=
  let chain := t.bestChain
  let index : Int := if height < 0 then chain.length + height else height
  if index < 0 then Except.error "NotFound"
  else
    match chain.get? index.toNat with
    | none => Except.error "NotFound"
    | some h => Except.ok (t.present h)

/-- Modelled from the spec: `get_header_before(unix_time)` of the missing tree, the
best-chain header with greatest height whose timestamp is at most the given time. -/
def MemTree.getHeaderBefore (t : MemTree) (time : Nat) : Except String ChainHeader :=
  match (t.bestChain.filter (fun h => h.blockHeader.timestamp ≤ time)).getLast? with
  | none => Except.error "NotFound"
  | some h => Except.ok (t.present h)

/-- Modelled from the spec: the heights of a locator of the missing tree, going back from
`height` in steps that double after the first ten entries and ending at genesis. -/
def MemTree.locatorHeights : Nat → Nat → Nat → Nat → List Nat
  | 0, _, _, _ => []
  | fuel + 1, height, stepSize, count =>
    if height = 0 then [0]
    else
      height :: MemTree.locatorHeights fuel (height - stepSize)
        (if count ≥ 9 then 2 * stepSize else stepSize) (count + 1)

/-- Modelled from the spec: `get_locator_hashes(starting_height)` of the missing tree, a
negative starting height meaning the tip. It fails on a tree without genesis. -/
def MemTree.getLocatorHashes (t : MemTree) (startingHeight : Int) :
    Except String (List bytes_t) :=
  let chain := t.bestChain
  if chain.isEmpty then Except.error "NotFound"
  else
    let top := chain.length - 1
    let start := if startingHeight < 0 then top else min startingHeight.toNat top
    Except.ok ((MemTree.locatorHeights (start + 1) start 1 0).filterMap
      (fun i => (chain.get? i).map (fun h => h.blockHeader.hashLittleEndian)))

/-- Modelled from the spec: `best_height()` of the missing tree (`-1` without genesis). -/
def MemTree.getBestHeight (t : MemTree) : Int :=
  match t.tip? with
  | none => -1
  | some tip => tip.height

/-- Modelled from the spec: `total_work()` of the missing tree. -/
def MemTree.getTotalWork (t : MemTree) : Nat :=
  match t.tip? with
  | none => 0
  | some tip => tip.chainWork

/-- Modelled from the spec: `flush_to_file(path)` of the missing tree; the snapshot is
written whole or not at all. -/
def MemTree.flushToFile (t : MemTree) (_file : String) : Option String × MemTree :=
  if t.writable then (none, { t with snapshot := some t.headers })
  else (some "flush failed", t)

/-- Modelled from the spec: `load_from_file(path, check_pow, progress_cb)` of the missing
tree. -/
def MemTree.loadFromFile (t : MemTree) (_file : String) (_checkProofOfWork : Bool) :
    Option String × MemTree :=
  match t.snapshot with
  | none => (some "file not found", t)
  | some hs => (none, { t with headers := hs })

/-- Modelled from the spec: `clear()` of the missing tree. -/
def MemTree.clear (t : MemTree) : MemTree := { t with headers := [] }

/-- Modelled from the spec: `set_genesis(header)` of the missing tree, failing when the tree
is already initialised. -/
def MemTree.setGenesisBlock (t : MemTree) (header : CoinBlockHeader) : Option String × MemTree :=
  if t.headers.isEmpty then
    (none, { t with headers := [ChainHeader.mk header true 0 (MemTree.work header.bits)] })
  else (some "already initialised", t)

/-- Modelled from the spec: the missing `Peer` as a flag that says whether the channel is
up; every call succeeds while it is up and throws otherwise, `start` brings it up and
`stop` takes it down. -/
def memPeer (up : Bool) : PeerCall → Option String × Bool
  | PeerCall.set _ _ _ _ _ _ _ => (none, up)
  | PeerCall.start => (none, true)
  | PeerCall.stop => (none, false)
  | _ => if up then (none, up) else (some "peer is not running", up)

/-- Modelled from the spec: the matching transaction hashes of a Merkle block, for the
missing `Coin::PartialMerkleTree`: the hashes carried by the block, in order, rejected when
there are more of them than transactions in the block. -/
def memTxHashes (merkleBlock : MerkleBlock) : Except String (List bytes_t) :=
  if merkleBlock.hashes.length ≤ merkleBlock.nTxs then Except.ok merkleBlock.hashes
  else Except.error "Invalid merkle tree"

/-- The concrete collaborators put together. -/
def memEnv : Env MemTree Bool where
  hasHeader := MemTree.hasHeader
  insertHeader := MemTree.insertHeader
  getHeader := MemTree.getHeader
  getHeaderAt := MemTree.getHeaderAt
  getHeaderBefore := MemTree.getHeaderBefore
  getLocatorHashes := MemTree.getLocatorHashes
  getBestHeight := MemTree.getBestHeight
  getTotalWork := MemTree.getTotalWork
  flushToFile := MemTree.flushToFile
  loadFromFile := MemTree.loadFromFile
  clear := MemTree.clear
  setGenesisBlock := MemTree.setGenesisBlock
  peer := memPeer
  getTxHashesLittleEndianVector := memTxHashes

/-- A header with the given hash and parent, for concrete runs. -/
def mkHeader (hash : Nat) (prev : Nat) (timestamp : Nat) : CoinBlockHeader :=
  { version := 1, prevBlockHash := [prev], merkleRoot := [], timestamp := timestamp,
    bits := 0, nonce := 0, hashLittleEndian := [hash] }

/-- A transaction with the given hash, for concrete runs. -/
def mkTx (hash : Nat) : Transaction := { hashLittleEndian := [hash], body := [] }

/-- A Merkle block over the given header that matches the given transaction hashes. -/
def mkMerkleBlock (header : CoinBlockHeader) (txs : List Nat) : MerkleBlock :=
  { blockHeader := header, nTxs := txs.length, hashes := txs.map (fun h => [h]), flags := [] }

/-- The genesis header of the concrete runs. -/
def genesisHeader : CoinBlockHeader := mkHeader 100 0 1000

/-- Chain parameters of the concrete runs. -/
def memParams : CoinParams :=
  { magic_bytes := 0, protocol_version := 70001, default_port := "8333",
    genesis_block := genesisHeader }

/-- A tree that holds the best chain `100 ← 101 ← 102` (heights 0, 1, 2) and a writable,
still empty snapshot file. -/
def memTree3 : MemTree :=
  { headers := [ChainHeader.mk genesisHeader true 0 1,
      ChainHeader.mk (mkHeader 101 100 1010) true 1 2,
      ChainHeader.mk (mkHeader 102 101 1020) true 2 3],
    snapshot := none, writable := true }

/-- A freshly constructed synchroniser over the concrete collaborators; the members the
constructor leaves uninitialised are given zero values. -/
def memInit (tree : MemTree) : NetworkSync MemTree Bool :=
  { m_coinParams := memParams, m_bStarted := false, m_peer := false, m_blockTreeFile := "",
    m_blockTree := tree, m_bConnected := false, m_bFetchingHeaders := false,
    m_bHeadersSynched := false, m_bFetchingBlocks := false, m_bBlocksFetched := false,
    m_bBlocksSynched := false, m_lastRequestedBlockHeight := 0,
    m_bloomFilter := { isSet := false, nHashFuncs := 0, nTweak := 0, nFlags := 0, filter := [] },
    m_currentMerkleBlock := ChainMerkleBlock.mk (mkMerkleBlock genesisHeader []) false 0 0,
    m_currentMerkleTxHashes := [], m_currentMerkleTxIndex := 0, m_currentMerkleTxCount := 0 }

/-- A connected synchroniser in the middle of a block fetch over `memTree3`: the Merkle block
at height 1 has been accepted and its two matching transactions `7` and `8` are expected. -/
def memFetching : NetworkSync MemTree Bool :=
  { memInit memTree3 with
    m_bStarted := true, m_peer := true, m_bConnected := true, m_bHeadersSynched := true,
    m_bFetchingBlocks := true, m_lastRequestedBlockHeight := 2,
    m_currentMerkleBlock := ChainMerkleBlock.mk (mkMerkleBlock (mkHeader 101 100 1010) [7, 8])
      true 1 2,
    m_currentMerkleTxHashes := [[7], [8]], m_currentMerkleTxIndex := 0,
    m_currentMerkleTxCount := 2 }

/-- A connected synchroniser that is neither fetching blocks nor synched. -/
def memIdle : NetworkSync MemTree Bool :=
  { memInit memTree3 with
    m_bStarted := true, m_peer := true, m_bConnected := true, m_bHeadersSynched := true }

/-- A connected synchroniser in the middle of a block fetch over `memTree3` that expects no
transaction: the block at height 1 has been requested. -/
def memFetchingNext : NetworkSync MemTree Bool :=
  { memInit memTree3 with
    m_bStarted := true, m_peer := true, m_bConnected := true, m_bHeadersSynched := true,
    m_bFetchingBlocks := true, m_lastRequestedBlockHeight := 1 }

/-- A connected synchroniser over `memTree3` that has requested the block at the tip. -/
def memFetchingTip : NetworkSync MemTree Bool :=
  { memFetchingNext with m_lastRequestedBlockHeight := 2 }

/-- A header that is not in `memTree3` and whose parent is the header at height 1: it opens
a side branch with the same work as the tip, so it does not change the best chain. -/
def sideHeader : CoinBlockHeader := mkHeader 103 101 1030

/-! ## Content events and the correlation buffer -/

/-- The notifications that deliver block content or a transaction: `merkleBlock`,
`merkleTx` and `newTx`. -/
def Event.isContent : Event → Bool
  | Event.notify (Notification.merkleBlock _) => true
  | Event.notify (Notification.merkleTx _ _ _ _) => true
  | Event.notify (Notification.newTx _) => true
  | _ => false

/-- No event of the list delivers block content or a transaction. -/
def noContent (events : List Event) : Bool := events.all (fun e => !e.isContent)

/-- The Merkle block correlation buffer of a state: current block, expected hashes, index
and count. -/
def correlation (s : NetworkSync T P) : ChainMerkleBlock × List bytes_t × Nat × Nat :=
  (s.m_currentMerkleBlock, s.m_currentMerkleTxHashes, s.m_currentMerkleTxIndex,
    s.m_currentMerkleTxCount)

/-- The notifications that deliver a transaction: `merkleTx` and `newTx`. -/
def Event.isTxDelivery : Event → Bool
  | Event.notify (Notification.merkleTx _ _ _ _) => true
  | Event.notify (Notification.newTx _) => true
  | _ => false

/-- No event of the list delivers a transaction. -/
def noTxDelivery (events : List Event) : Bool := events.all (fun e => !e.isTxDelivery)

/-- A connected and synched synchroniser over `memTree3`. -/
def memSynched : NetworkSync MemTree Bool :=
  { memFetchingTip with m_bFetchingBlocks := false, m_bBlocksFetched := true,
                        m_bBlocksSynched := true }

/-! ## The request of the inventory handler, as specified -/

/-- The request the specification describes for an inventory list: each `MSG_TX` item as it
is when blocks are synched, each `MSG_BLOCK` item as `MSG_FILTERED_BLOCK` with the same hash
when headers are synched, everything else dropped, in the order of the list. -/
def specGetDataItems (blocksSynched headersSynched : Bool) (items : List InventoryItem) :
    List InventoryItem :=
  items.filterMap (fun item =>
    if item.itemType = MSG_TX then (if blocksSynched then some item else none)
    else if item.itemType = MSG_BLOCK then
      (if headersSynched then some (InventoryItem.mk MSG_FILTERED_BLOCK item.hash) else none)
    else none)

/-! ## Block framing of the emissions -/

/-- The block whose deliveries are under way, as an observer sees it: the block of the last
`merkleBlock`, the number `count` of its matching hashes, the hashes of its partial Merkle
tree that have not been delivered yet, and the index the next `merkleTx` carries. -/
structure Frame where
  block : ChainMerkleBlock
  count : Nat
  expected : List bytes_t
  next : Nat

/-- One notification seen by an observer that checks block framing; `none` is a violation.
A `merkleBlock` is allowed when no block is open or when the open block has had all its
`count` deliveries, and opens the block with the hashes of its partial Merkle tree in tree
order. A `merkleTx` must carry the open block, its count, the next index and a transaction
with the next hash of the tree. All other notifications pass. -/
def frameStep (txHashes : MerkleBlock → Except String (List bytes_t)) :
    Option Frame → Notification → Option (Option Frame)
  | current, Notification.merkleBlock b =>
    let complete :=
      match current with
      | none => true
      | some f => f.expected.isEmpty && f.next == f.count
    if complete then
      match txHashes b.merkleBlock with
      | Except.ok hashes =>
        some (some { block := b, count := hashes.length, expected := hashes, next := 0 })
      | Except.error _ => none
    else none
  | none, Notification.merkleTx _ _ _ _ => none
  | some f, Notification.merkleTx b tx index count =>
    match f.expected with
    | [] => none
    | hash :: rest =>
      if b = f.block ∧ count = f.count ∧ index = f.next ∧ tx.hashLittleEndian = hash then
        some (some { f with expected := rest, next := f.next + 1 })
      else none
  | current, _ => some current

/-- The observer run over a list of notifications. -/
def frameRun (txHashes : MerkleBlock → Except String (List bytes_t)) :
    Option Frame → List Notification → Option (Option Frame)
  | current, [] => some current
  | current, n :: rest =>
    match frameStep txHashes current n with
    | none => none
    | some current1 => frameRun txHashes current1 rest

/-- The notifications respect block framing. -/
def framed (txHashes : MerkleBlock → Except String (List bytes_t))
    (notifications : List Notification) : Bool :=
  (frameRun txHashes none notifications).isSome

/-- The correlation buffer of the synchroniser agrees with what the observer has seen. -/
def frameInv (c : ChainMerkleBlock × List bytes_t × Nat × Nat) : Option Frame → Prop
  | none => c.2.1 = []
  | some f => c = (f.block, f.expected, f.next, f.count) ∧ f.next + f.expected.length = f.count

/-! ## Concrete runs -/

/-- A header on top of the tip of `memTree3`. -/
def tipChild : CoinBlockHeader := mkHeader 104 102 1040

/-- A run that ends synched with the best height moved on: the block at the tip (height 2)
is fetched and has no matching transaction, then the peer sends one more header. -/
def runBestMoves : List Input :=
  [Input.start "host" "", Input.onOpen, Input.syncBlocks [] 1020,
    Input.onMerkleBlock (mkMerkleBlock (mkHeader 102 101 1020) []),
    Input.onHeaders [tipChild]]

/-- A run that ends synched with transactions still expected: `syncBlocks` is called with
the tip as locator while the two matching transactions of the block at height 1 are
outstanding. -/
def runQueueLeft : List Input :=
  [Input.start "host" "", Input.onOpen, Input.syncBlocks [] 1010,
    Input.onMerkleBlock (mkMerkleBlock (mkHeader 101 100 1010) [7, 8]),
    Input.syncBlocks [[102]] 0]

/-! ## A batch of headers, as the specification describes it -/

/-- The tree after `insertHeader` has been called on every header of the list in order. -/
def insertedTree (env : Env T P) : List CoinBlockHeader → T → T
  | [], t => t
  | header :: rest, t => insertedTree env rest (env.insertHeader t header).2

/-- Every insertion of the list, made in order, succeeds. -/
def insertionsSucceed (env : Env T P) : List CoinBlockHeader → T → Bool
  | [], _ => true
  | header :: rest, t =>
    match (env.insertHeader t header).1 with
    | Except.ok _ => insertionsSucceed env rest (env.insertHeader t header).2
    | Except.error _ => false

/-- At least one insertion of the list, made in order up to the first failure, reports a new
best chain. -/
def insertionsNewBest (env : Env T P) : List CoinBlockHeader → T → Bool
  | [], _ => false
  | header :: rest, t =>
    match (env.insertHeader t header).1 with
    | Except.ok b => b || insertionsNewBest env rest (env.insertHeader t header).2
    | Except.error _ => false

/-- The `insertHeader` calls on the headers of a list, in order. -/
def insertCalls (headers : List CoinBlockHeader) : List Event :=
  headers.map (fun header => Event.tree (TreeCall.insertHeader header))

/-- The message of the block tree error that the headers handler notifies when the
insertion of `item` throws `e`. -/
def insertionErrorMessage (item : CoinBlockHeader) (e : String) : String :=
  "Block tree insertion error for block " ++ getHex item.hashLittleEndian ++ ": " ++ e

/-- A connected synchroniser over `memTree3` whose headers are not synched. -/
def memConnected : NetworkSync MemTree Bool :=
  { memInit memTree3 with m_bStarted := true, m_peer := true, m_bConnected := true }

/-- The tree `memTree3` with a snapshot file that cannot be written. -/
def memTreeReadOnly : MemTree := { memTree3 with writable := false }

/-- A connected synchroniser whose snapshot file cannot be written. -/
def memConnectedReadOnly : NetworkSync MemTree Bool :=
  { memInit memTreeReadOnly with
    m_bStarted := true, m_peer := true, m_bConnected := true, m_bFetchingHeaders := true }

/-- A header whose parent is not in `memTree3`. -/
def orphanHeader : CoinBlockHeader := mkHeader 200 199 2000

/-- Modelled from the spec: the hash of the best-chain tip of the missing tree. -/
def MemTree.tipHash? (t : MemTree) : Option bytes_t :=
  t.tip?.map (fun h => h.blockHeader.hashLittleEndian)

/-- Modelled from the spec: the hash of the best-chain tip of the snapshot last written for
the missing tree, if one has been written. -/
def MemTree.snapshotTipHash? (t : MemTree) : Option bytes_t :=
  match t.snapshot with
  | none => none
  | some headers => MemTree.tipHash? { t with headers := headers }

/-- A tree without any header and without a snapshot file. -/
def memTreeEmpty : MemTree := { headers := [], snapshot := none, writable := true }

/-- A tree whose snapshot file holds the chain of `memTree3` and cannot be written. -/
def memTreeStale : MemTree :=
  { headers := [], snapshot := some memTree3.headers, writable := false }

/-- A run in which the snapshot is loaded and then a full block with a header on top of the
tip arrives while the snapshot file cannot be written. -/
def runFlushFails : List Input :=
  [Input.loadHeaders "headers.dat" true, Input.start "host" "", Input.onOpen,
    Input.onBlock (CoinBlock.mk tipChild [])]

/-! ## The start of a block download -/

/-- The header the specification describes for a locator: that of the first hash, in list
order, whose header is in the tree and in the best chain. -/
def specLocatorHeader (env : Env T P) (t : T) (locatorHashes : List bytes_t) :
    Option ChainHeader :=
  locatorHashes.findSome? (fun hash =>
    match env.getHeader t hash with
    | Except.ok header => if header.inBestChain then some header else none
    | Except.error _ => none)

/-- The local `nextBlockRequestHeight` of `syncBlocks` (source lines 497-506): one more than
the height of the locator header found, computed in `int`, or the height of the header
before the start time when none is found. -/
def nextBlockRequestHeight (env : Env T P) (t : T) (locatorHashes : List bytes_t)
    (startTime : Nat) : Except String Int :=
  match (findLocatorHeader env t locatorHashes).1 with
  | some header => Except.ok (wrapInt32 (header.height + 1))
  | none =>
    match env.getHeaderBefore t startTime with
    | Except.ok header => Except.ok header.height
    | Except.error e => Except.error e

/-- `syncBlocks` has cleared `m_bFetchingBlocks` and `m_bBlocksFetched` (source lines
470-471). -/
def syncBlocksReset (s : NetworkSync T P) : NetworkSync T P :=
  { s with m_bFetchingBlocks := false, m_bBlocksFetched := false }

/-- A bloom filter that is set, for concrete runs. -/
def memFilter : BloomFilter :=
  { isSet := true, nHashFuncs := 3, nTweak := 5, nFlags := 1, filter := [255] }

/-! ## Counters and session state -/

/-- The counters of the correlation buffer agree with its queue: the index plus the number
of hashes still expected is the count. -/
def countersAgree (s : NetworkSync T P) : Prop :=
  s.m_currentMerkleTxIndex + s.m_currentMerkleTxHashes.length = s.m_currentMerkleTxCount

/-- The members that describe how far a session has come: the three synchronisation flags,
the last requested height and the correlation buffer. -/
def session (s : NetworkSync T P) :
    Bool × Bool × Bool × Nat × ChainMerkleBlock × List bytes_t × Nat × Nat :=
  (s.m_bHeadersSynched, s.m_bBlocksSynched, s.m_bBlocksFetched, s.m_lastRequestedBlockHeight,
    correlation s)

/-- Stop, start again and have the connection opened. -/
def restart (host : String) (port : String) : List Input :=
  [Input.stop, Input.start host port, Input.onOpen]

/-! ## Requests for filtered blocks -/

/-- The hashes of the `getFilteredBlock` calls among a list of events, in order. -/
def filteredBlockRequests : List Event → List bytes_t
  | [] => []
  | Event.peer (PeerCall.getFilteredBlock hash) :: rest => hash :: filteredBlockRequests rest
  | _ :: rest => filteredBlockRequests rest

/-- A tree that holds the best chain `100 ← 101 ← 102 ← 104` (heights 0 to 3). -/
def memTree4 : MemTree :=
  { headers := memTree3.headers ++ [ChainHeader.mk tipChild true 3 4],
    snapshot := none, writable := true }

/-- A block fetch over `memTree4` from height 1 in which the blocks at heights 1 and 2 have
arrived, neither with a matching transaction. -/
def runFetchTwo : List Input :=
  [Input.start "host" "", Input.onOpen, Input.syncBlocks [] 1010,
    Input.onMerkleBlock (mkMerkleBlock (mkHeader 101 100 1010) []),
    Input.onMerkleBlock (mkMerkleBlock (mkHeader 102 101 1020) [])]

/-- The fetch `runFetchTwo`, after which the peer sends the block at height 1 again. -/
def runResent : List Input :=
  runFetchTwo ++ [Input.onMerkleBlock (mkMerkleBlock (mkHeader 101 100 1010) [])]

/-! # Properties -/

/-! ## The transaction handler -/

/-- C1: in a connected state that is not synched, is fetching blocks and expects the hash of
`tx` at the front of the queue, the transaction handler pops exactly that hash, notifies
`merkleTx` with the current Merkle block, the old index and the count, increments the index,
and sets `m_bBlocksSynched` and notifies `blocksSynched` (after the `merkleTx`) exactly when
`m_bBlocksFetched` holds and the new index equals the count; nothing else is emitted and
nothing else changes. -/
theorem C1_onTx_expected_front (s : NetworkSync T P) (tx : Transaction) (rest : List bytes_t)
    (hc : s.m_bConnected = true) (hs : s.m_bBlocksSynched = false)
    (hf : s.m_bFetchingBlocks = true)
    (hq : s.m_currentMerkleTxHashes = tx.hashLittleEndian :: rest) :
    (onTx s tx).state.m_currentMerkleTxHashes = rest ∧
    (onTx s tx).state.m_currentMerkleTxIndex = s.m_currentMerkleTxIndex + 1 ∧
    ((onTx s tx).state.m_bBlocksSynched = true ↔
      (s.m_bBlocksFetched = true ∧ s.m_currentMerkleTxIndex + 1 = s.m_currentMerkleTxCount)) ∧
    (onTx s tx).events =
      Event.notify (Notification.merkleTx s.m_currentMerkleBlock tx s.m_currentMerkleTxIndex
        s.m_currentMerkleTxCount) ::
      (if s.m_bBlocksFetched = true ∧ s.m_currentMerkleTxIndex + 1 = s.m_currentMerkleTxCount
        then [Event.notify Notification.blocksSynched] else []) ∧
    (onTx s tx).thrown = none ∧
    (onTx s tx).state =
      { s with m_currentMerkleTxHashes := rest,
               m_currentMerkleTxIndex := s.m_currentMerkleTxIndex + 1,
               m_bBlocksSynched := (onTx s tx).state.m_bBlocksSynched } := by
  by_cases hlast : s.m_bBlocksFetched = true ∧
      s.m_currentMerkleTxIndex + 1 = s.m_currentMerkleTxCount
  · simp [onTx, hc, hs, hf, hq, hlast]
  · have hlast2 := hlast
    rw [not_and] at hlast2
    simp [onTx, hc, hs, hf, hq, hlast, hlast2]

/-- C1 at a concrete state: the first of two expected transactions is delivered. -/
theorem C1_onTx_expected_front_witness :
    (onTx memFetching (mkTx 7)).state.m_currentMerkleTxHashes = [[8]] ∧
    (onTx memFetching (mkTx 7)).state.m_currentMerkleTxIndex = 1 :=
  ⟨(C1_onTx_expected_front memFetching (mkTx 7) [[8]] rfl rfl rfl rfl).1,
   (C1_onTx_expected_front memFetching (mkTx 7) [[8]] rfl rfl rfl rfl).2.1⟩

/-- C3: in a connected state that is not synched, the transaction handler notifies exactly
one protocol error, emits nothing else and leaves the whole state as it is, when (a) it is
fetching blocks and the queue is empty, (b) it is fetching blocks and the front of the queue
is not the hash of `tx` (the message is then "Transaction received out of order."), (c) it
is not fetching blocks. After a mismatch in (b), a transaction with the hash at the front of
the queue is delivered as `merkleTx`. -/
theorem C3_onTx_protocol_errors (s : NetworkSync T P) (tx : Transaction)
    (hc : s.m_bConnected = true) (hs : s.m_bBlocksSynched = false) :
    (s.m_bFetchingBlocks = true → s.m_currentMerkleTxHashes = [] →
      onTx s tx =
        { state := s,
          events := [Event.notify (Notification.protocolError
            "Should not be receiving transactions before blocks when fetching blocks.")],
          thrown := none }) ∧
    (s.m_bFetchingBlocks = true → ∀ front rest, s.m_currentMerkleTxHashes = front :: rest →
      front ≠ tx.hashLittleEndian →
      onTx s tx =
        { state := s,
          events := [Event.notify (Notification.protocolError
            "Transaction received out of order.")],
          thrown := none } ∧
      ∀ tx2 : Transaction, tx2.hashLittleEndian = front →
        (onTx (onTx s tx).state tx2).events.head? =
          some (Event.notify (Notification.merkleTx s.m_currentMerkleBlock tx2
            s.m_currentMerkleTxIndex s.m_currentMerkleTxCount)) ∧
        (onTx (onTx s tx).state tx2).state.m_currentMerkleTxHashes = rest) ∧
    (s.m_bFetchingBlocks = false →
      onTx s tx =
        { state := s,
          events := [Event.notify (Notification.protocolError
            "Should not be receiving transactions if not synched and not fetching blocks.")],
          thrown := none }) := by
  refine ⟨?_, ?_, ?_⟩
  · intro hf hq
    simp [onTx, txProtocolError, hc, hs, hf, hq]
  · intro hf front rest hq hne
    have h1 : onTx s tx =
        { state := s,
          events := [Event.notify (Notification.protocolError
            "Transaction received out of order.")],
          thrown := none } := by
      simp [onTx, txProtocolError, hc, hs, hf, hq, hne]
    refine ⟨h1, ?_⟩
    intro tx2 h2
    rw [h1]
    have hq2 : s.m_currentMerkleTxHashes = tx2.hashLittleEndian :: rest := by rw [h2]; exact hq
    by_cases hlast : s.m_bBlocksFetched = true ∧
        s.m_currentMerkleTxIndex + 1 = s.m_currentMerkleTxCount
    · simp [onTx, hc, hs, hf, hq2, hlast]
    · have hlast2 := hlast
      rw [not_and] at hlast2
      simp [onTx, hc, hs, hf, hq2, hlast, hlast2]
  · intro hf
    simp [onTx, txProtocolError, hc, hs, hf]

/-- C3 at a concrete state: a transaction that is not the expected one is answered with the
out-of-order protocol error. -/
theorem C3_onTx_protocol_errors_witness :
    onTx memFetching (mkTx 9) =
      { state := memFetching,
        events := [Event.notify (Notification.protocolError
          "Transaction received out of order.")],
        thrown := none } :=
  ((C3_onTx_protocol_errors memFetching (mkTx 9) rfl rfl).2.1 rfl [7] [[8]] rfl
    (by decide)).1

/-! ## The Merkle block handler -/

/-- C2: in a connected state whose queue of expected hashes is not empty, the Merkle block
handler notifies the protocol error "Block was received before getting transactions from
last block." and does nothing else: no tree call, no peer call, no other notification, and
the state (flags, queue, counters, current block, tree, peer) is unchanged. -/
theorem C2_onMerkleBlock_queue_not_empty (env : Env T P) (s : NetworkSync T P)
    (merkleBlock : MerkleBlock) (hc : s.m_bConnected = true)
    (hq : s.m_currentMerkleTxHashes ≠ []) :
    onMerkleBlock env s merkleBlock =
      { state := s,
        events := [Event.notify (Notification.protocolError
          "Block was received before getting transactions from last block.")],
        thrown := none } := by
  cases hl : s.m_currentMerkleTxHashes with
  | nil => exact absurd hl hq
  | cons a l => simp [onMerkleBlock, merkleProtocolError, hc, hl]

/-- C2 at a concrete state: a Merkle block that arrives while two transactions are still
expected. -/
theorem C2_onMerkleBlock_queue_not_empty_witness :
    onMerkleBlock memEnv memFetching (mkMerkleBlock (mkHeader 102 101 1020) []) =
      { state := memFetching,
        events := [Event.notify (Notification.protocolError
          "Block was received before getting transactions from last block.")],
        thrown := none } :=
  C2_onMerkleBlock_queue_not_empty memEnv memFetching _ rfl (by decide)

/-- C4 as stated fails: in the middle of a block fetch the handler receives a header that is
not in the tree and whose insertion returns false; the four flags are cleared and the
headers are requested again, but no `blockTreeError` (and no other notification) is
emitted. -/
theorem C4_counterexample :
    memFetchingNext.m_bConnected = true ∧
    memFetchingNext.m_currentMerkleTxHashes = [] ∧
    memEnv.hasHeader memFetchingNext.m_blockTree sideHeader.hashLittleEndian = false ∧
    (memEnv.insertHeader memFetchingNext.m_blockTree sideHeader).1.toOption = some false ∧
    emissions (onMerkleBlock memEnv memFetchingNext (mkMerkleBlock sideHeader [])).events = [] ∧
    peerCalls (onMerkleBlock memEnv memFetchingNext (mkMerkleBlock sideHeader [])).events =
      [PeerCall.getHeaders [[102], [101], [100]]] := by
  decide

/-- C4, amended: in a connected state with an empty queue, when the header of the Merkle
block is not in the tree and its insertion returns false, the handler clears
`m_bHeadersSynched`, `m_bBlocksSynched`, `m_bBlocksFetched` and `m_bFetchingBlocks`, asks the
tree for the locator from the tip and calls `getHeaders` with it, and returns without
treating the block as content (no `merkleBlock`, no filtered block request, queue, counters,
current block and last requested height unchanged). It notifies `blockTreeError` only when
the locator or the `getHeaders` call throws; otherwise it emits nothing. -/
theorem C4_onMerkleBlock_rejected_header (env : Env T P) (s : NetworkSync T P)
    (merkleBlock : MerkleBlock) (t1 : T) (hc : s.m_bConnected = true)
    (hq : s.m_currentMerkleTxHashes = [])
    (hh : env.hasHeader s.m_blockTree merkleBlock.blockHeader.hashLittleEndian = false)
    (hi : env.insertHeader s.m_blockTree merkleBlock.blockHeader = (Except.ok false, t1)) :
    (onMerkleBlock env s merkleBlock).state.m_bHeadersSynched = false ∧
    (onMerkleBlock env s merkleBlock).state.m_bBlocksSynched = false ∧
    (onMerkleBlock env s merkleBlock).state.m_bBlocksFetched = false ∧
    (onMerkleBlock env s merkleBlock).state.m_bFetchingBlocks = false ∧
    (onMerkleBlock env s merkleBlock).state.m_currentMerkleTxHashes = [] ∧
    (onMerkleBlock env s merkleBlock).state.m_currentMerkleTxIndex = s.m_currentMerkleTxIndex ∧
    (onMerkleBlock env s merkleBlock).state.m_currentMerkleTxCount = s.m_currentMerkleTxCount ∧
    (onMerkleBlock env s merkleBlock).state.m_currentMerkleBlock = s.m_currentMerkleBlock ∧
    (onMerkleBlock env s merkleBlock).state.m_lastRequestedBlockHeight =
      s.m_lastRequestedBlockHeight ∧
    (onMerkleBlock env s merkleBlock).state.m_blockTree = t1 ∧
    treeCalls (onMerkleBlock env s merkleBlock).events =
      [TreeCall.insertHeader merkleBlock.blockHeader] ∧
    (∀ locator, env.getLocatorHashes t1 (-1) = Except.ok locator →
      peerCalls (onMerkleBlock env s merkleBlock).events = [PeerCall.getHeaders locator] ∧
      ((env.peer s.m_peer (PeerCall.getHeaders locator)).1 = none →
        emissions (onMerkleBlock env s merkleBlock).events = []) ∧
      (∀ e, (env.peer s.m_peer (PeerCall.getHeaders locator)).1 = some e →
        emissions (onMerkleBlock env s merkleBlock).events =
          [Notification.blockTreeError e])) ∧
    (∀ e, env.getLocatorHashes t1 (-1) = Except.error e →
      peerCalls (onMerkleBlock env s merkleBlock).events = [] ∧
      emissions (onMerkleBlock env s merkleBlock).events = [Notification.blockTreeError e]) := by
  cases hl : env.getLocatorHashes t1 (-1) with
  | error e =>
    simp [onMerkleBlock, hc, hq, hh, hi, hl, emissions, peerCalls, treeCalls]
  | ok locator =>
    cases hp : env.peer s.m_peer (PeerCall.getHeaders locator) with
    | mk o p1 =>
      cases o with
      | none => simp [onMerkleBlock, hc, hq, hh, hi, hl, hp, emissions, peerCalls, treeCalls]
      | some e => simp [onMerkleBlock, hc, hq, hh, hi, hl, hp, emissions, peerCalls, treeCalls]

/-- C4 (amended) at a concrete state: the side-branch header is rejected in the middle of a
fetch and the fetch flag is cleared. -/
theorem C4_onMerkleBlock_rejected_header_witness :
    (onMerkleBlock memEnv memFetchingNext (mkMerkleBlock sideHeader [])).state.m_bFetchingBlocks
      = false :=
  (C4_onMerkleBlock_rejected_header memEnv memFetchingNext (mkMerkleBlock sideHeader [])
    (memEnv.insertHeader memFetchingNext.m_blockTree sideHeader).2 rfl rfl (by decide)
    rfl).2.2.2.1

/-- Conversion to `uint32_t` does nothing on a value that is in range. -/
theorem toU32_of_range (i : Int) (h0 : 0 ≤ i) (h1 : i < 4294967296) : (toU32 i : Int) = i := by
  unfold toU32
  rw [Int.emod_eq_of_lt h0 h1]
  exact Int.toNat_of_nonneg h0

/-- Arithmetic in `int` gives the exact result when that is in range. -/
theorem wrapInt32_of_range (i : Int) (h0 : -2147483648 ≤ i) (h1 : i < 2147483648) :
    wrapInt32 i = i := by
  unfold wrapInt32
  rw [Int.emod_eq_of_lt (by omega) (by omega)]
  omega

/-- One more than the largest `int` is the smallest `int`. -/
theorem wrapInt32_overflow : wrapInt32 (2147483647 + 1) = -2147483648 := by
  decide

/-- C5 as stated fails in its last clause: in a fetch over a chain of heights 0 to 3 that
starts at height 1, the peer sends the block at height 1 once more after the block at height
2. The handler accepts it (connected, fetching, empty queue, header in the tree, height
below the best height) and requests the block at height 2 again, so the blocks are requested
at heights 1, 2, 3, 2, and the last requested height goes back from 3 to 2. -/
theorem C5_counterexample :
    isInitial (memInit memTree4) = true ∧
    filteredBlockRequests (run memEnv (memInit memTree4) runResent).2 =
      [[101], [102], [104], [102]] ∧
    (run memEnv (memInit memTree4) runFetchTwo).1.m_bConnected = true ∧
    (run memEnv (memInit memTree4) runFetchTwo).1.m_bFetchingBlocks = true ∧
    (run memEnv (memInit memTree4) runFetchTwo).1.m_currentMerkleTxHashes = [] ∧
    (run memEnv (memInit memTree4) runFetchTwo).1.m_lastRequestedBlockHeight = 3 ∧
    memEnv.hasHeader (run memEnv (memInit memTree4) runFetchTwo).1.m_blockTree [101] = true ∧
    memEnv.getBestHeight (run memEnv (memInit memTree4) runFetchTwo).1.m_blockTree = 3 ∧
    (run memEnv (memInit memTree4) runResent).1.m_lastRequestedBlockHeight = 2 := by
  decide

/-- C5, amended: in a connected state that is fetching blocks with an empty queue, when the
Merkle block is accepted (its header is in the tree, its partial Merkle tree parses, the
tree returns its chain header at height `h`) and `h` is below the best height (heights being
non-negative 32-bit `int` values), the handler makes exactly one peer call,
`getFilteredBlock` for the hash of the header the tree returns at height `h + 1`, sets
`m_lastRequestedBlockHeight` to `h + 1` and leaves `m_bBlocksFetched` and
`m_bBlocksSynched` as they were. The handler does not compare `h` with
`m_lastRequestedBlockHeight`; only when the accepted block is the one last requested is the
next request for the height after the last request. -/
theorem C5_onMerkleBlock_requests_next (env : Env T P) (s : NetworkSync T P)
    (merkleBlock : MerkleBlock) (txhashes : List bytes_t) (header nextHeader : ChainHeader)
    (hc : s.m_bConnected = true) (hf : s.m_bFetchingBlocks = true)
    (hq : s.m_currentMerkleTxHashes = [])
    (hh : env.hasHeader s.m_blockTree merkleBlock.blockHeader.hashLittleEndian = true)
    (htx : env.getTxHashesLittleEndianVector merkleBlock = Except.ok txhashes)
    (hhdr : env.getHeader s.m_blockTree merkleBlock.blockHeader.hashLittleEndian
      = Except.ok header)
    (h0 : 0 ≤ header.height) (hlt : header.height < env.getBestHeight s.m_blockTree)
    (hbest : env.getBestHeight s.m_blockTree < 2147483648)
    (hnext : env.getHeaderAt s.m_blockTree (header.height + 1) = Except.ok nextHeader)
    (hnh : nextHeader.height = header.height + 1) :
    peerCalls (onMerkleBlock env s merkleBlock).events =
      [PeerCall.getFilteredBlock nextHeader.blockHeader.hashLittleEndian] ∧
    ((onMerkleBlock env s merkleBlock).state.m_lastRequestedBlockHeight : Int)
      = header.height + 1 ∧
    (onMerkleBlock env s merkleBlock).state.m_bBlocksFetched = s.m_bBlocksFetched ∧
    (onMerkleBlock env s merkleBlock).state.m_bBlocksSynched = s.m_bBlocksSynched ∧
    ((s.m_lastRequestedBlockHeight : Int) = header.height →
      (onMerkleBlock env s merkleBlock).state.m_lastRequestedBlockHeight
        = s.m_lastRequestedBlockHeight + 1) := by
  have hbu : (toU32 (env.getBestHeight s.m_blockTree) : Int) = env.getBestHeight s.m_blockTree :=
    toU32_of_range _ (by omega) (by omega)
  have hw : wrapInt32 (header.height + 1) = header.height + 1 :=
    wrapInt32_of_range _ (by omega) (by omega)
  have hhu : (toU32 header.height : Int) = header.height := toU32_of_range _ h0 (by omega)
  have hnu : (toU32 nextHeader.height : Int) = header.height + 1 := by
    rw [hnh]; exact toU32_of_range _ (by omega) (by omega)
  have hgt : toU32 header.height < toU32 (env.getBestHeight s.m_blockTree) := by omega
  have hlast : ∀ n : Nat, (n : Int) = header.height → toU32 nextHeader.height = n + 1 := by
    intro n hn; omega
  cases hp : env.peer s.m_peer
      (PeerCall.getFilteredBlock nextHeader.blockHeader.hashLittleEndian) with
  | mk o p1 =>
    cases o with
    | none =>
      simp [onMerkleBlock, merkleBlockContent, hc, hf, hq, hh, htx, hhdr, hw, hnext, hgt, hp,
        peerCalls, hnu]
      exact hlast _
    | some e =>
      simp [onMerkleBlock, merkleBlockContent, hc, hf, hq, hh, htx, hhdr, hw, hnext, hgt, hp,
        peerCalls, hnu]
      exact hlast _

/-- C5 (amended) at a concrete state: the block at height 1 of `memTree3` arrives and the block at
height 2 is requested. -/
theorem C5_onMerkleBlock_requests_next_witness :
    peerCalls (onMerkleBlock memEnv memFetchingNext
      (mkMerkleBlock (mkHeader 101 100 1010) [7, 8])).events = [PeerCall.getFilteredBlock [102]] :=
  (C5_onMerkleBlock_requests_next memEnv memFetchingNext
    (mkMerkleBlock (mkHeader 101 100 1010) [7, 8]) [[7], [8]]
    (ChainHeader.mk (mkHeader 101 100 1010) true 1 2)
    (ChainHeader.mk (mkHeader 102 101 1020) true 2 3)
    rfl rfl rfl rfl rfl rfl (by decide) (by decide) (by decide) rfl rfl).1

/-- C6: in a connected state that is fetching blocks with an empty queue, when the Merkle
block is accepted with a known header whose height `h` equals both the best height and
`m_lastRequestedBlockHeight`, the handler sets `m_bBlocksFetched`; if the partial Merkle
tree yields no hash it also sets `m_bBlocksSynched` and its notifications are `merkleBlock`
of the current block followed at once by `blocksSynched`; if it yields a hash,
`m_bBlocksSynched` is left as it was and the only notification is `merkleBlock`. -/
theorem C6_onMerkleBlock_last_block (env : Env T P) (s : NetworkSync T P)
    (merkleBlock : MerkleBlock) (txhashes : List bytes_t) (header : ChainHeader)
    (hc : s.m_bConnected = true) (hf : s.m_bFetchingBlocks = true)
    (hq : s.m_currentMerkleTxHashes = [])
    (hh : env.hasHeader s.m_blockTree merkleBlock.blockHeader.hashLittleEndian = true)
    (htx : env.getTxHashesLittleEndianVector merkleBlock = Except.ok txhashes)
    (hhdr : env.getHeader s.m_blockTree merkleBlock.blockHeader.hashLittleEndian
      = Except.ok header)
    (hbest : env.getBestHeight s.m_blockTree = header.height)
    (hlast : (s.m_lastRequestedBlockHeight : Int) = header.height)
    (hrange : header.height < 4294967296) :
    (onMerkleBlock env s merkleBlock).state.m_bBlocksFetched = true ∧
    (txhashes = [] →
      (onMerkleBlock env s merkleBlock).state.m_bBlocksSynched = true ∧
      emissions (onMerkleBlock env s merkleBlock).events =
        [Notification.merkleBlock (onMerkleBlock env s merkleBlock).state.m_currentMerkleBlock,
          Notification.blocksSynched]) ∧
    (txhashes ≠ [] →
      (onMerkleBlock env s merkleBlock).state.m_bBlocksSynched = s.m_bBlocksSynched ∧
      emissions (onMerkleBlock env s merkleBlock).events =
        [Notification.merkleBlock (onMerkleBlock env s merkleBlock).state.m_currentMerkleBlock]) ∧
    (onMerkleBlock env s merkleBlock).state.m_currentMerkleBlock =
      ChainMerkleBlock.mk merkleBlock true header.height header.chainWork := by
  have hhu : (toU32 header.height : Int) = header.height :=
    toU32_of_range _ (by omega) hrange
  have hl : toU32 header.height = s.m_lastRequestedBlockHeight := by omega
  cases txhashes with
  | nil =>
    simp [onMerkleBlock, merkleBlockContent, hc, hf, hq, hh, htx, hhdr, hbest, hl, emissions]
  | cons a l =>
    simp [onMerkleBlock, merkleBlockContent, hc, hf, hq, hh, htx, hhdr, hbest, hl, emissions]

/-- C6 at a concrete state: the block at the tip of `memTree3` arrives without matching
transactions and the synchroniser is synched. -/
theorem C6_onMerkleBlock_last_block_witness :
    (onMerkleBlock memEnv memFetchingTip
      (mkMerkleBlock (mkHeader 102 101 1020) [])).state.m_bBlocksSynched = true :=
  ((C6_onMerkleBlock_last_block memEnv memFetchingTip (mkMerkleBlock (mkHeader 102 101 1020) [])
    [] (ChainHeader.mk (mkHeader 102 101 1020) true 2 3) rfl rfl rfl rfl rfl rfl rfl rfl
    (by decide)).2.1 rfl).1

/-! ## What the other operations leave alone -/

theorem noContent_append (a b : List Event) :
    noContent (a ++ b) = (noContent a && noContent b) := by
  simp [noContent, List.all_append]

theorem mem_emissions {n : Notification} {events : List Event} :
    n ∈ emissions events ↔ Event.notify n ∈ events := by
  induction events with
  | nil => simp [emissions]
  | cons e rest ih => cases e <;> simp [emissions, ih]

theorem emissions_append (a b : List Event) :
    emissions (a ++ b) = emissions a ++ emissions b := by
  induction a with
  | nil => simp [emissions]
  | cons e rest ih => cases e <;> simp [emissions, ih]

theorem noContent_mem {events : List Event} (h : noContent events = true) {e : Event}
    (he : e ∈ events) : e.isContent = false := by
  simp only [noContent, List.all_eq_true] at h
  simpa using h e he

theorem noContent_cons (e : Event) (rest : List Event) :
    noContent (e :: rest) = (!e.isContent && noContent rest) := by
  simp [noContent]

theorem insertHeaders_noContent (env : Env T P) (headers : List CoinBlockHeader) (t : T)
    (hs : Bool) : noContent (insertHeaders env headers t hs).events = true := by
  induction headers generalizing t hs with
  | nil => rfl
  | cons item rest ih =>
    unfold insertHeaders
    split
    · dsimp only
      rw [noContent_cons, ih]
      rfl
    · rfl

theorem findLocatorHeader_noContent (env : Env T P) (t : T) (hashes : List bytes_t) :
    noContent (findLocatorHeader env t hashes).2 = true := by
  induction hashes with
  | nil => rfl
  | cons hash rest ih =>
    unfold findLocatorHeader
    split
    · split
      · rfl
      · exact ih
    · dsimp only
      rw [noContent_cons, ih]
      rfl

theorem noContent_nil : noContent [] = true := rfl

theorem syncBlocksFrom_frame (env : Env T P) (s : NetworkSync T P) (pre : List Event)
    (bestHeader : ChainHeader) (next : Int) (hpre : noContent pre = true) :
    correlation (syncBlocksFrom env s pre bestHeader next).state = correlation s ∧
    noContent (syncBlocksFrom env s pre bestHeader next).events = true := by
  unfold syncBlocksFrom
  repeat' first | split | dsimp only
  all_goals
    simp [correlation, noContent_append, noContent_cons, noContent_nil, hpre, Event.isContent]

theorem syncBlocks_frame (env : Env T P) (s : NetworkSync T P) (locatorHashes : List bytes_t)
    (startTime : Nat) :
    correlation (NetworkSync.syncBlocks env s locatorHashes startTime).state = correlation s ∧
    noContent (NetworkSync.syncBlocks env s locatorHashes startTime).events = true := by
  have hfound := findLocatorHeader_noContent env s.m_blockTree locatorHashes
  unfold NetworkSync.syncBlocks
  repeat' first | split | dsimp only
  all_goals
    first
    | exact syncBlocksFrom_frame env _ _ _ _ hfound
    | exact ⟨rfl, hfound⟩
    | exact ⟨rfl, rfl⟩

theorem stop_frame (env : Env T P) (s : NetworkSync T P) :
    correlation (NetworkSync.stop env s).state = correlation s ∧
    noContent (NetworkSync.stop env s).events = true := by
  unfold NetworkSync.stop
  repeat' first | split | dsimp only
  all_goals exact ⟨rfl, rfl⟩

theorem openGetHeaders_frame (env : Env T P) (s : NetworkSync T P) (pre : List Event)
    (hpre : noContent pre = true) :
    correlation (openGetHeaders env s pre).state = correlation s ∧
    noContent (openGetHeaders env s pre).events = true := by
  unfold openGetHeaders
  repeat' first | split | dsimp only
  all_goals
    simp [correlation, noContent_append, noContent_cons, noContent_nil, hpre, Event.isContent]

theorem onOpen_frame (env : Env T P) (s : NetworkSync T P) :
    correlation (onOpen env s).state = correlation s ∧
    noContent (onOpen env s).events = true := by
  unfold onOpen
  repeat' first | split | dsimp only
  all_goals
    first
    | exact ⟨rfl, rfl⟩
    | exact openGetHeaders_frame env _ _ rfl

theorem onClose_frame (env : Env T P) (s : NetworkSync T P) :
    correlation (onClose env s).state = correlation s ∧
    noContent (onClose env s).events = true := by
  have h := stop_frame env s
  unfold onClose
  repeat' first | split | dsimp only
  · exact h
  · exact ⟨h.1, by simp [noContent_append, noContent_cons, noContent_nil, h.2, Event.isContent]⟩

theorem onHeaders_frame (env : Env T P) (s : NetworkSync T P) (headers : List CoinBlockHeader) :
    correlation (onHeaders env s headers).state = correlation s ∧
    noContent (onHeaders env s headers).events = true := by
  have hloop := insertHeaders_noContent env headers s.m_blockTree s.m_bHeadersSynched
  unfold onHeaders
  repeat' first | split | dsimp only
  all_goals
    simp [correlation, noContent_append, noContent_cons, noContent_nil, hloop, Event.isContent]

theorem onBlock_frame (env : Env T P) (s : NetworkSync T P) (block : CoinBlock) :
    correlation (onBlock env s block).state = correlation s ∧
    noContent (onBlock env s block).events = true := by
  unfold onBlock blockHandlerError
  repeat' first | split | dsimp only
  all_goals
    simp [correlation, noContent_append, noContent_cons, noContent_nil, Event.isContent]

theorem loadHeaders_frame (env : Env T P) (s : NetworkSync T P) (file : String) (check : Bool) :
    correlation (NetworkSync.loadHeaders env s file check).state = correlation s ∧
    noContent (NetworkSync.loadHeaders env s file check).events = true := by
  unfold NetworkSync.loadHeaders
  repeat' first | split | dsimp only
  all_goals
    simp [correlation, noContent_append, noContent_cons, noContent_nil, Event.isContent]

theorem start_frame (env : Env T P) (s : NetworkSync T P) (host port : String) :
    correlation (NetworkSync.start env s host port).state = correlation s ∧
    noContent (NetworkSync.start env s host port).events = true := by
  unfold NetworkSync.start
  repeat' first | split | dsimp only
  all_goals exact ⟨rfl, rfl⟩

theorem forward_frame (env : Env T P) (s : NetworkSync T P) (call : PeerCall) :
    correlation (NetworkSync.forward env s call).state = correlation s ∧
    noContent (NetworkSync.forward env s call).events = true :=
  ⟨rfl, rfl⟩

theorem setBloomFilter_frame (env : Env T P) (s : NetworkSync T P) (f : BloomFilter) :
    correlation (NetworkSync.setBloomFilter env s f).state = correlation s ∧
    noContent (NetworkSync.setBloomFilter env s f).events = true := by
  unfold NetworkSync.setBloomFilter
  repeat' first | split | dsimp only
  · exact ⟨rfl, rfl⟩
  · exact forward_frame env _ _

theorem onInv_frame (env : Env T P) (s : NetworkSync T P) (items : List InventoryItem) :
    correlation (onInv env s items).state = correlation s ∧
    noContent (onInv env s items).events = true := by
  unfold onInv
  repeat' first | split | dsimp only
  all_goals exact ⟨rfl, rfl⟩

/-- Every operation other than the transaction handler and the Merkle block handler leaves
the correlation buffer as it is and emits no `merkleBlock`, `merkleTx` or `newTx`. -/
theorem step_frame (env : Env T P) (s : NetworkSync T P) (i : Input)
    (htx : ∀ tx, i ≠ Input.onTx tx) (hmb : ∀ mb, i ≠ Input.onMerkleBlock mb) :
    correlation (step env s i).state = correlation s ∧
    noContent (step env s i).events = true := by
  cases i with
  | setCoinParams p =>
    simp only [step, NetworkSync.setCoinParams]
    split <;> exact ⟨rfl, rfl⟩
  | setBloomFilter f => exact setBloomFilter_frame env s f
  | loadHeaders file check => exact loadHeaders_frame env s file check
  | start host port => exact start_frame env s host port
  | stop => exact stop_frame env s
  | syncBlocks l t => exact syncBlocks_frame env s l t
  | stopSyncBlocks =>
    simp only [step, NetworkSync.stopSyncBlocks]
    split <;> exact ⟨rfl, rfl⟩
  | sendTx tx => exact forward_frame env s _
  | getTx hash => exact forward_frame env s _
  | getTxs hashes => exact forward_frame env s _
  | getMempool => exact forward_frame env s _
  | getFilteredBlock hash => exact forward_frame env s _
  | onOpen => exact onOpen_frame env s
  | onClose => exact onClose_frame env s
  | onTimeout => exact ⟨rfl, rfl⟩
  | onConnectionError e => exact ⟨rfl, rfl⟩
  | onProtocolError e => exact ⟨rfl, rfl⟩
  | onInv items => exact onInv_frame env s items
  | onTx tx => exact absurd rfl (htx tx)
  | onHeaders headers => exact onHeaders_frame env s headers
  | onBlock block => exact onBlock_frame env s block
  | onMerkleBlock mb => exact absurd rfl (hmb mb)

theorem noTxDelivery_nil : noTxDelivery [] = true := rfl

theorem noTxDelivery_cons (e : Event) (rest : List Event) :
    noTxDelivery (e :: rest) = (!e.isTxDelivery && noTxDelivery rest) := by
  simp [noTxDelivery]

theorem noTxDelivery_append (a b : List Event) :
    noTxDelivery (a ++ b) = (noTxDelivery a && noTxDelivery b) := by
  simp [noTxDelivery, List.all_append]

theorem noTxDelivery_mem {events : List Event} (h : noTxDelivery events = true) {e : Event}
    (he : e ∈ events) : e.isTxDelivery = false := by
  simp only [noTxDelivery, List.all_eq_true] at h
  simpa using h e he

theorem noTxDelivery_of_noContent {events : List Event} (h : noContent events = true) :
    noTxDelivery events = true := by
  simp only [noContent, noTxDelivery, List.all_eq_true] at h ⊢
  intro e he
  have h1 := h e he
  cases e with
  | notify n => cases n <;> simp_all [Event.isContent, Event.isTxDelivery]
  | peer c => rfl
  | tree c => rfl

theorem merkleBlockContent_noTxDelivery (env : Env T P) (s : NetworkSync T P)
    (pre : List Event) (merkleBlock : MerkleBlock) (hpre : noTxDelivery pre = true) :
    noTxDelivery (merkleBlockContent env s pre merkleBlock).events = true := by
  unfold merkleBlockContent merkleProtocolError
  repeat' first | split | dsimp only
  all_goals
    simp [noTxDelivery_append, noTxDelivery_cons, noTxDelivery_nil, hpre, Event.isTxDelivery]

/-! ## New transactions -/

/-- The Merkle block handler delivers no transaction. -/
theorem onMerkleBlock_noTxDelivery (env : Env T P) (s : NetworkSync T P)
    (merkleBlock : MerkleBlock) :
    noTxDelivery (onMerkleBlock env s merkleBlock).events = true := by
  unfold onMerkleBlock merkleProtocolError
  repeat' first | split | dsimp only
  all_goals
    first
    | rfl
    | exact merkleBlockContent_noTxDelivery env _ _ _ rfl

/-- C9: `newTx` is emitted only while `m_bBlocksSynched` holds. In a connected state the
transaction handler emits `newTx tx` exactly when `m_bBlocksSynched` is true at entry, and
then that is its only event and the state is unchanged; a `newTx` of the transaction handler
always carries the transaction received, in a connected and synched state; and no other
member function or handler emits `newTx`. -/
theorem C9_newTx_only_when_synched (env : Env T P) (s : NetworkSync T P) :
    (∀ tx, s.m_bConnected = true →
      ((Notification.newTx tx ∈ emissions (onTx s tx).events ↔ s.m_bBlocksSynched = true) ∧
        (s.m_bBlocksSynched = true →
          onTx s tx =
            { state := s, events := [Event.notify (Notification.newTx tx)],
              thrown := none }))) ∧
    (∀ tx tx2, Notification.newTx tx2 ∈ emissions (onTx s tx).events →
      s.m_bConnected = true ∧ s.m_bBlocksSynched = true ∧ tx2 = tx) ∧
    (∀ i : Input, (∀ tx, i ≠ Input.onTx tx) →
      ∀ tx2, Notification.newTx tx2 ∉ emissions (step env s i).events) := by
  have key : ∀ tx tx2, Notification.newTx tx2 ∈ emissions (onTx s tx).events →
      s.m_bConnected = true ∧ s.m_bBlocksSynched = true ∧ tx2 = tx := by
    intro tx tx2
    unfold onTx txProtocolError
    repeat' first | split | dsimp only
    all_goals simp_all [emissions]
  refine ⟨?_, key, ?_⟩
  · intro tx hc
    have hsyn : s.m_bBlocksSynched = true →
        onTx s tx =
          { state := s, events := [Event.notify (Notification.newTx tx)],
            thrown := none } := by
      intro hs
      simp [onTx, hc, hs]
    refine ⟨⟨fun h => (key tx tx h).2.1, fun hs => ?_⟩, hsyn⟩
    rw [hsyn hs]
    simp [emissions]
  · intro i hi tx2 hmem
    rw [mem_emissions] at hmem
    by_cases hmb : ∃ mb, i = Input.onMerkleBlock mb
    · obtain ⟨mb, rfl⟩ := hmb
      have h := noTxDelivery_mem (onMerkleBlock_noTxDelivery env s mb) hmem
      simp [Event.isTxDelivery] at h
    · have hmb2 : ∀ mb, i ≠ Input.onMerkleBlock mb := fun mb h => hmb ⟨mb, h⟩
      have h := noContent_mem (step_frame env s i hi hmb2).2 hmem
      simp [Event.isContent] at h

/-- C9 at a concrete state: a transaction relayed to a synched synchroniser is passed on as
`newTx`. -/
theorem C9_newTx_only_when_synched_witness :
    onTx memSynched (mkTx 5) =
      { state := memSynched, events := [Event.notify (Notification.newTx (mkTx 5))],
        thrown := none } :=
  ((C9_newTx_only_when_synched memEnv memSynched).1 (mkTx 5) rfl).2 rfl

/-! ## The inventory handler -/

theorem invLoop_eq_spec (s : NetworkSync T P) (items acc : List InventoryItem) :
    invLoop s items acc = acc ++ specGetDataItems s.m_bBlocksSynched s.m_bHeadersSynched items := by
  induction items generalizing acc with
  | nil => simp [invLoop, specGetDataItems]
  | cons item rest ih =>
    unfold invLoop
    simp only [specGetDataItems, List.filterMap_cons] at ih ⊢
    repeat' first | split | dsimp only
    all_goals simp_all

/-- C10: in a connected state the inventory handler builds the request that the
specification describes (`specGetDataItems`), calls `m_peer.send` with it exactly once when
it has an item and makes no call when it has none, emits nothing, and changes no member of
the synchroniser (only the peer itself moves on). -/
theorem C10_onInv_getData (env : Env T P) (s : NetworkSync T P) (items : List InventoryItem)
    (hc : s.m_bConnected = true) :
    (specGetDataItems s.m_bBlocksSynched s.m_bHeadersSynched items ≠ [] →
      (onInv env s items).events = [Event.peer (PeerCall.sendGetData
        (specGetDataItems s.m_bBlocksSynched s.m_bHeadersSynched items))]) ∧
    (specGetDataItems s.m_bBlocksSynched s.m_bHeadersSynched items = [] →
      (onInv env s items).events = [] ∧ (onInv env s items).state = s) ∧
    (onInv env s items).state = { s with m_peer := (onInv env s items).state.m_peer } := by
  have hloop := invLoop_eq_spec s items []
  rw [List.nil_append] at hloop
  cases hreq : specGetDataItems s.m_bBlocksSynched s.m_bHeadersSynched items with
  | nil =>
    have h : onInv env s items = { state := s, events := [], thrown := none } := by
      simp [onInv, hc, hloop, hreq]
    rw [h]
    exact ⟨fun hne => absurd rfl hne, fun _ => ⟨rfl, rfl⟩, rfl⟩
  | cons a l =>
    have h : onInv env s items =
        { state := { s with m_peer := (env.peer s.m_peer (PeerCall.sendGetData (a :: l))).2 },
          events := [Event.peer (PeerCall.sendGetData (a :: l))],
          thrown := (env.peer s.m_peer (PeerCall.sendGetData (a :: l))).1 } := by
      simp [onInv, hc, hloop, hreq]
    rw [h]
    exact ⟨fun _ => rfl, fun hnil => absurd hnil (List.cons_ne_nil a l), rfl⟩

/-- C10 at a concrete state: an inventory with a transaction and a block, headers synched
and blocks not synched, is answered with a request for the filtered block only. -/
theorem C10_onInv_getData_witness :
    (onInv memEnv memIdle [InventoryItem.mk MSG_TX [5], InventoryItem.mk MSG_BLOCK [102]]).events
      = [Event.peer (PeerCall.sendGetData [InventoryItem.mk MSG_FILTERED_BLOCK [102]])] :=
  (C10_onInv_getData memEnv memIdle
    [InventoryItem.mk MSG_TX [5], InventoryItem.mk MSG_BLOCK [102]] rfl).1 (by decide)

/-! ## Block framing of the emissions -/

theorem frameRun_append (txHashes : MerkleBlock → Except String (List bytes_t))
    (current : Option Frame) (a b : List Notification) :
    frameRun txHashes current (a ++ b) =
      match frameRun txHashes current a with
      | none => none
      | some current1 => frameRun txHashes current1 b := by
  induction a generalizing current with
  | nil => rfl
  | cons n rest ih =>
    simp only [List.cons_append, frameRun]
    cases frameStep txHashes current n with
    | none => rfl
    | some c => exact ih c

theorem frameRun_noContent (txHashes : MerkleBlock → Except String (List bytes_t))
    (current : Option Frame) (events : List Event) (h : noContent events = true) :
    frameRun txHashes current (emissions events) = some current := by
  induction events with
  | nil => rfl
  | cons e rest ih =>
    rw [noContent_cons, Bool.and_eq_true] at h
    cases e with
    | peer c => exact ih h.2
    | tree c => exact ih h.2
    | notify n =>
      have h1 := h.1
      cases n <;> first
        | (simp [Event.isContent] at h1; done)
        | (cases current <;> simp [emissions, frameRun, frameStep, ih h.2])

theorem frameInv_front (s : NetworkSync T P) (current : Option Frame) (front : bytes_t)
    (rest : List bytes_t) (hinv : frameInv (correlation s) current)
    (hq : s.m_currentMerkleTxHashes = front :: rest) :
    ∃ f, current = some f ∧ f.block = s.m_currentMerkleBlock ∧ f.expected = front :: rest ∧
      f.next = s.m_currentMerkleTxIndex ∧ f.count = s.m_currentMerkleTxCount ∧
      f.next + (rest.length + 1) = f.count := by
  cases current with
  | none =>
    simp [frameInv, correlation, hq] at hinv
  | some f =>
    obtain ⟨hc, hn⟩ := hinv
    simp only [correlation, Prod.mk.injEq] at hc
    obtain ⟨h1, h2, h3, h4⟩ := hc
    rw [hq] at h2
    refine ⟨f, rfl, h1.symm, h2.symm, h3.symm, h4.symm, ?_⟩
    rw [← h2] at hn
    simpa using hn

theorem onTx_frame (txHashes : MerkleBlock → Except String (List bytes_t))
    (s : NetworkSync T P) (tx : Transaction) (current : Option Frame)
    (hinv : frameInv (correlation s) current) :
    ∃ current1, frameRun txHashes current (emissions (onTx s tx).events) = some current1 ∧
      frameInv (correlation (onTx s tx).state) current1 := by
  have hnew : frameRun txHashes current [Notification.newTx tx] = some current := by
    cases current <;> rfl
  have herr : ∀ msg, frameRun txHashes current [Notification.protocolError msg]
      = some current := by
    intro msg; cases current <;> rfl
  unfold onTx txProtocolError
  split
  · exact ⟨current, rfl, hinv⟩
  · split
    · exact ⟨current, hnew, hinv⟩
    · split
      · split
        · exact ⟨current, herr _, hinv⟩
        · rename_i front rest hq
          split
          · exact ⟨current, herr _, hinv⟩
          · rename_i hfront
            have hfront2 : front = tx.hashLittleEndian := by simpa using hfront
            obtain ⟨f, rfl, hb, he, hn, hcnt, hlen⟩ := frameInv_front s current front rest hinv hq
            refine ⟨some { f with expected := rest, next := f.next + 1 }, ?_, ?_⟩
            · dsimp only
              split <;>
                simp [emissions, frameRun, frameStep, he, hb, hn, hcnt, hfront2]
            · dsimp only
              split <;>
                (simp only [frameInv, correlation, Prod.mk.injEq]
                 refine ⟨⟨hb.symm, trivial, by rw [hn], hcnt.symm⟩, ?_⟩
                 omega)
      · exact ⟨current, herr _, hinv⟩

/-- The two ways the second half of the Merkle block handler can go: either the correlation
buffer is untouched and nothing that delivers content is emitted after `pre`, or the
handler is fetching blocks, the block is parsed and looked up, the buffer is set from it and
`merkleBlock` is the first event after `pre`, followed by events that deliver no content. -/
theorem merkleBlockContent_shape (env : Env T P) (s : NetworkSync T P) (pre : List Event)
    (merkleBlock : MerkleBlock) :
    (correlation (merkleBlockContent env s pre merkleBlock).state = correlation s ∧
      ∃ tail, (merkleBlockContent env s pre merkleBlock).events = pre ++ tail ∧
        noContent tail = true) ∨
    (s.m_bFetchingBlocks = true ∧ ∃ txhashes header tail,
      env.getTxHashesLittleEndianVector merkleBlock = Except.ok txhashes ∧
      env.getHeader s.m_blockTree merkleBlock.blockHeader.hashLittleEndian = Except.ok header ∧
      correlation (merkleBlockContent env s pre merkleBlock).state =
        (ChainMerkleBlock.mk merkleBlock true header.height header.chainWork,
          s.m_currentMerkleTxHashes ++ txhashes, 0, txhashes.length) ∧
      (merkleBlockContent env s pre merkleBlock).events =
        pre ++ Event.notify (Notification.merkleBlock
          (ChainMerkleBlock.mk merkleBlock true header.height header.chainWork)) :: tail ∧
      noContent tail = true) := by
  unfold merkleBlockContent merkleProtocolError
  split
  · exact Or.inl ⟨rfl, [], by simp, rfl⟩
  · rename_i hf
    have hf2 : s.m_bFetchingBlocks = true := by simpa using hf
    split
    · exact Or.inl ⟨rfl, _, rfl, rfl⟩
    · rename_i txhashes htx
      split
      · exact Or.inl ⟨rfl, _, rfl, rfl⟩
      · rename_i header hhdr
        refine Or.inr ⟨hf2, txhashes, header, ?_⟩
        dsimp only
        repeat' first | split | dsimp only
        all_goals
          refine ⟨?_, htx, hhdr, rfl, ?_, ?_⟩
          rotate_left
          · try simp only [List.append_assoc, List.singleton_append, List.cons_append,
              List.nil_append]
            exact rfl
          · exact rfl

/-- The two ways the Merkle block handler can go: either the correlation buffer is untouched
and nothing that delivers content is emitted, or the state is connected with an empty queue
and is fetching blocks, the block is parsed, the buffer is set from it, and exactly one
`merkleBlock` is emitted, between events that deliver no content. -/
theorem onMerkleBlock_shape (env : Env T P) (s : NetworkSync T P) (merkleBlock : MerkleBlock) :
    (correlation (onMerkleBlock env s merkleBlock).state = correlation s ∧
      noContent (onMerkleBlock env s merkleBlock).events = true) ∨
    (s.m_bConnected = true ∧ s.m_currentMerkleTxHashes = [] ∧
      ∃ txhashes height chainWork pre tail,
        env.getTxHashesLittleEndianVector merkleBlock = Except.ok txhashes ∧
        correlation (onMerkleBlock env s merkleBlock).state =
          (ChainMerkleBlock.mk merkleBlock true height chainWork, txhashes, 0,
            txhashes.length) ∧
        (onMerkleBlock env s merkleBlock).events =
          pre ++ Event.notify (Notification.merkleBlock
            (ChainMerkleBlock.mk merkleBlock true height chainWork)) :: tail ∧
        noContent pre = true ∧ noContent tail = true) := by
  have content : ∀ (s1 : NetworkSync T P) (pre : List Event),
      correlation s1 = correlation s → s.m_bConnected = true →
      s.m_currentMerkleTxHashes = [] → noContent pre = true →
      (correlation (merkleBlockContent env s1 pre merkleBlock).state = correlation s ∧
        noContent (merkleBlockContent env s1 pre merkleBlock).events = true) ∨
      (s.m_bConnected = true ∧ s.m_currentMerkleTxHashes = [] ∧
        ∃ txhashes height chainWork pre1 tail,
          env.getTxHashesLittleEndianVector merkleBlock = Except.ok txhashes ∧
          correlation (merkleBlockContent env s1 pre merkleBlock).state =
            (ChainMerkleBlock.mk merkleBlock true height chainWork, txhashes, 0,
              txhashes.length) ∧
          (merkleBlockContent env s1 pre merkleBlock).events =
            pre1 ++ Event.notify (Notification.merkleBlock
              (ChainMerkleBlock.mk merkleBlock true height chainWork)) :: tail ∧
          noContent pre1 = true ∧ noContent tail = true) := by
    intro s1 pre hcorr hc hq hpre
    have hq1 : s1.m_currentMerkleTxHashes = [] := by
      have := congrArg (fun c => c.2.1) hcorr
      simpa [correlation, hq] using this
    rcases merkleBlockContent_shape env s1 pre merkleBlock with
      ⟨h1, tail, h2, h3⟩ | ⟨_, txhashes, header, tail, htx, _, h1, h2, h3⟩
    · exact Or.inl ⟨h1.trans hcorr, by rw [h2, noContent_append, hpre, h3]; rfl⟩
    · refine Or.inr ⟨hc, hq, txhashes, header.height, header.chainWork, pre, tail, htx, ?_,
        h2, hpre, h3⟩
      rw [h1, hq1, List.nil_append]
  unfold onMerkleBlock merkleProtocolError
  split
  · exact Or.inl ⟨rfl, rfl⟩
  · rename_i hc
    have hc2 : s.m_bConnected = true := by simpa using hc
    split
    · exact Or.inl ⟨rfl, rfl⟩
    · rename_i hq
      have hq2 : s.m_currentMerkleTxHashes = [] := by simpa using hq
      split
      · exact content s [] rfl hc2 hq2 rfl
      · dsimp only
        split
        · exact Or.inl ⟨rfl, rfl⟩
        · split
          · exact Or.inl ⟨rfl, rfl⟩
          · exact content _ _ rfl hc2 hq2 rfl
        · split
          · exact Or.inl ⟨rfl, rfl⟩
          · split
            · exact Or.inl ⟨rfl, rfl⟩
            · exact Or.inl ⟨rfl, rfl⟩

theorem onMerkleBlock_frame (env : Env T P) (s : NetworkSync T P) (merkleBlock : MerkleBlock)
    (current : Option Frame) (hinv : frameInv (correlation s) current) :
    ∃ current1,
      frameRun env.getTxHashesLittleEndianVector current
        (emissions (onMerkleBlock env s merkleBlock).events) = some current1 ∧
      frameInv (correlation (onMerkleBlock env s merkleBlock).state) current1 := by
  rcases onMerkleBlock_shape env s merkleBlock with
    ⟨h1, h2⟩ | ⟨_, hq, txhashes, height, chainWork, pre, tail, htx, h1, h2, h3, h4⟩
  · exact ⟨current, frameRun_noContent _ _ _ h2, by rw [h1]; exact hinv⟩
  · refine ⟨some (Frame.mk (ChainMerkleBlock.mk merkleBlock true height chainWork)
      txhashes.length txhashes 0), ?_, ?_⟩
    · have hstep : frameStep env.getTxHashesLittleEndianVector current
          (Notification.merkleBlock (ChainMerkleBlock.mk merkleBlock true height chainWork)) =
          some (some (Frame.mk (ChainMerkleBlock.mk merkleBlock true height chainWork)
            txhashes.length txhashes 0)) := by
        cases current with
        | none => simp [frameStep, htx]
        | some f =>
          obtain ⟨hc, hn⟩ := hinv
          simp only [correlation, Prod.mk.injEq] at hc
          have he : f.expected = [] := by rw [← hc.2.1]; exact hq
          have hnc : f.next = f.count := by rw [he] at hn; simpa using hn
          simp [frameStep, htx, he, hnc]
      rw [h2, emissions_append, frameRun_append, frameRun_noContent _ _ _ h3]
      simp only [emissions, frameRun, hstep]
      exact frameRun_noContent _ _ _ h4
    · rw [h1]
      exact ⟨rfl, by simp⟩

theorem step_frameInv (env : Env T P) (s : NetworkSync T P) (i : Input)
    (current : Option Frame) (hinv : frameInv (correlation s) current) :
    ∃ current1,
      frameRun env.getTxHashesLittleEndianVector current
        (emissions (step env s i).events) = some current1 ∧
      frameInv (correlation (step env s i).state) current1 := by
  by_cases htx : ∃ tx, i = Input.onTx tx
  · obtain ⟨tx, rfl⟩ := htx
    exact onTx_frame _ s tx current hinv
  · by_cases hmb : ∃ mb, i = Input.onMerkleBlock mb
    · obtain ⟨mb, rfl⟩ := hmb
      exact onMerkleBlock_frame env s mb current hinv
    · have h := step_frame env s i (fun tx h => htx ⟨tx, h⟩) (fun mb h => hmb ⟨mb, h⟩)
      exact ⟨current, frameRun_noContent _ _ _ h.2, by rw [h.1]; exact hinv⟩

theorem run_frameInv (env : Env T P) (inputs : List Input) (s : NetworkSync T P)
    (current : Option Frame) (hinv : frameInv (correlation s) current) :
    ∃ current1,
      frameRun env.getTxHashesLittleEndianVector current
        (emissions (run env s inputs).2) = some current1 ∧
      frameInv (correlation (run env s inputs).1) current1 := by
  induction inputs generalizing s current with
  | nil => exact ⟨current, rfl, hinv⟩
  | cons i rest ih =>
    obtain ⟨c1, h1, hinv1⟩ := step_frameInv env s i current hinv
    obtain ⟨c2, h2, hinv2⟩ := ih (step env s i).state c1 hinv1
    refine ⟨c2, ?_, hinv2⟩
    simp only [run]
    rw [emissions_append, frameRun_append, h1]
    exact h2

theorem isInitial_frameInv (s : NetworkSync T P) (h : isInitial s = true) :
    frameInv (correlation s) none := by
  simp only [isInitial, Bool.and_eq_true, List.isEmpty_iff] at h
  exact h.2

/-- C7: in every run of member function calls and peer events from a freshly constructed
synchroniser, the notifications respect block framing (`framed`): after a `merkleBlock` of
a block with `n` matching hashes, every `merkleTx` before the next `merkleBlock` carries
that block and `n`, the indices count up from 0 and the transactions have the hashes of the
block's partial Merkle tree in tree order, and a further `merkleBlock` comes only after all
`n` of them. When the transaction handler then notifies `blocksSynched`, it does so right
after the `merkleTx` of the open block whose index is `n - 1`. -/
theorem C7_block_framing (env : Env T P) (s0 : NetworkSync T P) (inputs : List Input)
    (h0 : isInitial s0 = true) :
    framed env.getTxHashesLittleEndianVector (emissions (run env s0 inputs).2) = true ∧
    ∀ tx, Notification.blocksSynched ∈ emissions (onTx (run env s0 inputs).1 tx).events →
      ∃ f, frameRun env.getTxHashesLittleEndianVector none (emissions (run env s0 inputs).2)
          = some (some f) ∧
        f.next + 1 = f.count ∧
        emissions (onTx (run env s0 inputs).1 tx).events =
          [Notification.merkleTx f.block tx f.next f.count, Notification.blocksSynched] := by
  obtain ⟨c, hrun, hinv⟩ := run_frameInv env inputs s0 none (isInitial_frameInv s0 h0)
  refine ⟨by simp [framed, hrun], ?_⟩
  intro tx
  generalize (run env s0 inputs).1 = s at hinv ⊢
  rw [hrun]
  unfold onTx txProtocolError
  repeat' first | split | dsimp only
  all_goals try (intro h; simp [emissions] at h; done)
  rename_i front rest hq hfront hlast
  intro _
  have hfront2 : front = tx.hashLittleEndian := by simpa using hfront
  obtain ⟨f, rfl, hb, he, hn, hcnt, hlen⟩ := frameInv_front s c front rest hinv hq
  simp only [Bool.and_eq_true, beq_iff_eq] at hlast
  refine ⟨f, rfl, by rw [hn, hcnt]; exact hlast.2, ?_⟩
  simp [emissions, hb, hn, hcnt]

/-- C7 at a concrete run: start, open, a block fetch from height 1 of `memTree3`, the block
at height 1 with two matching transactions (and a stray one in between), then the block at
the tip. -/
theorem C7_block_framing_witness :
    framed memEnv.getTxHashesLittleEndianVector
      (emissions (run memEnv (memInit memTree3)
        [Input.start "host" "", Input.onOpen, Input.syncBlocks [] 1010,
          Input.onMerkleBlock (mkMerkleBlock (mkHeader 101 100 1010) [7, 8]),
          Input.onTx (mkTx 7), Input.onTx (mkTx 9), Input.onTx (mkTx 8),
          Input.onMerkleBlock (mkMerkleBlock (mkHeader 102 101 1020) [])]).2) = true :=
  (C7_block_framing memEnv (memInit memTree3) _ rfl).1

/-! ## When blocks are synched -/

/-- C8 as stated fails: from a freshly constructed synchroniser, one run ends with
`m_bBlocksSynched` true and a last requested height (2) that is not the best height (3), and
another ends with `m_bBlocksSynched` true and two hashes still in the queue. -/
theorem C8_counterexample :
    isInitial (memInit memTree3) = true ∧
    (run memEnv (memInit memTree3) runBestMoves).1.m_bBlocksSynched = true ∧
    (run memEnv (memInit memTree3) runBestMoves).1.m_lastRequestedBlockHeight = 2 ∧
    memEnv.getBestHeight (run memEnv (memInit memTree3) runBestMoves).1.m_blockTree = 3 ∧
    (run memEnv (memInit memTree3) runQueueLeft).1.m_bBlocksSynched = true ∧
    (run memEnv (memInit memTree3) runQueueLeft).1.m_currentMerkleTxHashes = [[7], [8]] := by
  decide

theorem merkleBlockContent_synched (env : Env T P) (s : NetworkSync T P) (pre : List Event)
    (merkleBlock : MerkleBlock) (hpre : Event.notify Notification.blocksSynched ∉ pre) :
    (Event.notify Notification.blocksSynched ∈ (merkleBlockContent env s pre merkleBlock).events →
      (merkleBlockContent env s pre merkleBlock).state.m_bBlocksSynched = true ∧
      (merkleBlockContent env s pre merkleBlock).state.m_lastRequestedBlockHeight =
        toU32 (env.getBestHeight (merkleBlockContent env s pre merkleBlock).state.m_blockTree) ∧
      (merkleBlockContent env s pre merkleBlock).state.m_currentMerkleTxHashes = []) ∧
    ((merkleBlockContent env s pre merkleBlock).state.m_bBlocksSynched = true →
      s.m_bBlocksSynched = true ∨
      Event.notify Notification.blocksSynched ∈
        (merkleBlockContent env s pre merkleBlock).events) := by
  unfold merkleBlockContent merkleProtocolError
  repeat' first | split | dsimp only
  all_goals simp_all

theorem onMerkleBlock_synched (env : Env T P) (s : NetworkSync T P)
    (merkleBlock : MerkleBlock) :
    (Event.notify Notification.blocksSynched ∈ (onMerkleBlock env s merkleBlock).events →
      (onMerkleBlock env s merkleBlock).state.m_bBlocksSynched = true ∧
      (onMerkleBlock env s merkleBlock).state.m_lastRequestedBlockHeight =
        toU32 (env.getBestHeight (onMerkleBlock env s merkleBlock).state.m_blockTree) ∧
      (onMerkleBlock env s merkleBlock).state.m_currentMerkleTxHashes = []) ∧
    ((onMerkleBlock env s merkleBlock).state.m_bBlocksSynched = true →
      s.m_bBlocksSynched = true ∨
      Event.notify Notification.blocksSynched ∈ (onMerkleBlock env s merkleBlock).events) := by
  unfold onMerkleBlock merkleProtocolError
  repeat' first | split | dsimp only
  all_goals
    first
    | (have h := merkleBlockContent_synched env s [] merkleBlock (by simp)
       exact h)
    | (rename_i t2 _
       have h := merkleBlockContent_synched env
         { s with m_blockTree := t2, m_bHeadersSynched := true, m_bBlocksFetched := false,
                  m_bBlocksSynched := false }
         ([Event.tree (TreeCall.insertHeader merkleBlock.blockHeader),
           Event.notify (Notification.status "Flushing block chain to file..."),
           Event.tree (TreeCall.flushToFile s.m_blockTreeFile)] ++
           [Event.notify (Notification.status "Done flushing block chain to file"),
             Event.notify Notification.headersSynched]) merkleBlock (by simp)
       refine ⟨h.1, fun hs => Or.inr ?_⟩
       rcases h.2 hs with h1 | h1
       · simp at h1
       · exact h1)
    | simp_all

/-- C8, amended: in every state reachable from a freshly constructed synchroniser, (1) when
the Merkle block handler notifies `blocksSynched`, which it does whenever it turns
`m_bBlocksSynched` from false to true, it leaves `m_bBlocksSynched` true,
`m_lastRequestedBlockHeight` equal to the best height (as `uint32_t`, so equal to it when it
is in range) and the queue empty; (2) when the transaction handler turns `m_bBlocksSynched`
from false to true, it leaves the queue empty. Nothing is said about `syncBlocks`, which
sets the flag on its own, nor about the handlers that move the best height. -/
theorem C8_blocksSynched_when_set (env : Env T P) (s0 : NetworkSync T P) (inputs : List Input)
    (h0 : isInitial s0 = true) :
    (∀ merkleBlock,
      Notification.blocksSynched ∈
          emissions (onMerkleBlock env (run env s0 inputs).1 merkleBlock).events →
        (onMerkleBlock env (run env s0 inputs).1 merkleBlock).state.m_bBlocksSynched = true ∧
        (onMerkleBlock env (run env s0 inputs).1 merkleBlock).state.m_lastRequestedBlockHeight =
          toU32 (env.getBestHeight
            (onMerkleBlock env (run env s0 inputs).1 merkleBlock).state.m_blockTree) ∧
        (0 ≤ env.getBestHeight
            (onMerkleBlock env (run env s0 inputs).1 merkleBlock).state.m_blockTree →
          env.getBestHeight
            (onMerkleBlock env (run env s0 inputs).1 merkleBlock).state.m_blockTree
              < 4294967296 →
          ((onMerkleBlock env (run env s0 inputs).1 merkleBlock).state.m_lastRequestedBlockHeight
            : Int) = env.getBestHeight
              (onMerkleBlock env (run env s0 inputs).1 merkleBlock).state.m_blockTree) ∧
        (onMerkleBlock env (run env s0 inputs).1 merkleBlock).state.m_currentMerkleTxHashes
          = []) ∧
    (∀ merkleBlock, (run env s0 inputs).1.m_bBlocksSynched = false →
      (onMerkleBlock env (run env s0 inputs).1 merkleBlock).state.m_bBlocksSynched = true →
      Notification.blocksSynched ∈
        emissions (onMerkleBlock env (run env s0 inputs).1 merkleBlock).events) ∧
    (∀ tx, (run env s0 inputs).1.m_bBlocksSynched = false →
      (onTx (run env s0 inputs).1 tx).state.m_bBlocksSynched = true →
      (onTx (run env s0 inputs).1 tx).state.m_currentMerkleTxHashes = []) := by
  obtain ⟨c, _, hinv⟩ := run_frameInv env inputs s0 none (isInitial_frameInv s0 h0)
  generalize (run env s0 inputs).1 = s at hinv ⊢
  refine ⟨?_, ?_, ?_⟩
  · intro merkleBlock hmem
    rw [mem_emissions] at hmem
    obtain ⟨h1, h2, h3⟩ := (onMerkleBlock_synched env s merkleBlock).1 hmem
    refine ⟨h1, h2, ?_, h3⟩
    intro hlo hhi
    rw [h2]
    exact toU32_of_range _ hlo hhi
  · intro merkleBlock hs hs2
    rw [mem_emissions]
    rcases (onMerkleBlock_synched env s merkleBlock).2 hs2 with h | h
    · rw [hs] at h
      exact absurd h (by decide)
    · exact h
  · intro tx hs
    unfold onTx txProtocolError
    repeat' first | split | dsimp only
    all_goals try (intro h; simp_all; done)
    rename_i front rest hq hfront hlast
    intro _
    obtain ⟨f, _, _, _, hn, hcnt, hlen⟩ := frameInv_front s c front rest hinv hq
    simp only [Bool.and_eq_true, beq_iff_eq] at hlast
    have h := hlast.2
    rw [← hn, ← hcnt] at h
    have hr : rest.length = 0 := by omega
    exact List.length_eq_zero.mp hr

/-- C8 (amended) at a concrete run: the block at the tip of `memTree3` is fetched, arrives
without matching transactions, and the handler leaves the queue empty. -/
theorem C8_blocksSynched_when_set_witness :
    (onMerkleBlock memEnv (run memEnv (memInit memTree3)
      [Input.start "host" "", Input.onOpen, Input.syncBlocks [] 1020]).1
      (mkMerkleBlock (mkHeader 102 101 1020) [])).state.m_currentMerkleTxHashes = [] :=
  ((C8_blocksSynched_when_set memEnv (memInit memTree3)
    [Input.start "host" "", Input.onOpen, Input.syncBlocks [] 1020] rfl).1
    (mkMerkleBlock (mkHeader 102 101 1020) []) (by decide)).2.2.2

/-! ## The headers handler -/

/-- The loop of the headers handler on a list whose insertions all succeed. -/
theorem insertHeaders_succeed (env : Env T P) (headers : List CoinBlockHeader) (t : T)
    (hs : Bool) (hok : insertionsSucceed env headers t = true) :
    (insertHeaders env headers t hs).thrown = none ∧
    (insertHeaders env headers t hs).tree = insertedTree env headers t ∧
    (insertHeaders env headers t hs).headersSynched =
      (if insertionsNewBest env headers t = true then false else hs) ∧
    (insertHeaders env headers t hs).events = insertCalls headers := by
  induction headers generalizing t hs with
  | nil => simp [insertHeaders, insertedTree, insertionsNewBest, insertCalls]
  | cons item rest ih =>
    cases h : env.insertHeader t item with
    | mk r t1 =>
      cases r with
      | error e => simp [insertionsSucceed, h] at hok
      | ok b =>
        have hok1 : insertionsSucceed env rest t1 = true := by
          simpa [insertionsSucceed, h] using hok
        obtain ⟨h1, h2, h3, h4⟩ := ih t1 (if b then false else hs) hok1
        refine ⟨?_, ?_, ?_, ?_⟩
        · simp only [insertHeaders, h]
          exact h1
        · simp only [insertHeaders, h, insertedTree]
          exact h2
        · simp only [insertHeaders, h, h3, insertionsNewBest]
          cases b <;> simp
        · simp only [insertHeaders, h, h4, insertCalls, List.map_cons]

/-- The loop of the headers handler on a list in which the insertion of `bad` is the first
to throw. -/
theorem insertHeaders_fail (env : Env T P) (before : List CoinBlockHeader)
    (bad : CoinBlockHeader) (after : List CoinBlockHeader) (t : T) (hs : Bool) (e : String)
    (t1 : T) (hok : insertionsSucceed env before t = true)
    (hbad : env.insertHeader (insertedTree env before t) bad = (Except.error e, t1)) :
    (insertHeaders env (before ++ bad :: after) t hs).thrown = some e ∧
    (insertHeaders env (before ++ bad :: after) t hs).tree = t1 ∧
    (insertHeaders env (before ++ bad :: after) t hs).headersSynched =
      (if insertionsNewBest env before t = true then false else hs) ∧
    (insertHeaders env (before ++ bad :: after) t hs).events =
      insertCalls (before ++ [bad]) ++
        [Event.notify (Notification.blockTreeError (insertionErrorMessage bad e))] := by
  induction before generalizing t hs with
  | nil =>
    simp only [insertedTree] at hbad
    simp [insertHeaders, hbad, insertionsNewBest, insertCalls, insertionErrorMessage]
  | cons item rest ih =>
    cases h : env.insertHeader t item with
    | mk r t2 =>
      cases r with
      | error e2 => simp [insertionsSucceed, h] at hok
      | ok b =>
        have hok1 : insertionsSucceed env rest t2 = true := by
          simpa [insertionsSucceed, h] using hok
        have hbad1 : env.insertHeader (insertedTree env rest t2) bad = (Except.error e, t1) := by
          simpa [insertedTree, h] using hbad
        obtain ⟨h1, h2, h3, h4⟩ := ih t2 (if b then false else hs) hok1 hbad1
        refine ⟨?_, ?_, ?_, ?_⟩
        · simp only [List.cons_append, insertHeaders, h]
          exact h1
        · simp only [List.cons_append, insertHeaders, h]
          exact h2
        · simp only [List.cons_append, insertHeaders, h, insertionsNewBest]
          refine Eq.trans h3 ?_
          cases b <;> simp
        · simp only [List.cons_append, insertHeaders, h]
          refine Eq.trans (congrArg (List.cons _) h4) ?_
          simp [insertCalls]

/-- C11: in a connected state the headers handler, given an empty list, calls
`flushToFile` on the tree with the configured file and makes no other tree or peer call (no
insertion, no `getHeaders`); when the flush returns it sets `m_bHeadersSynched` and notifies
`headersSynched` after the flush; when the flush throws, `m_bHeadersSynched` keeps its value
and `headersSynched` is not notified. -/
theorem C11_onHeaders_empty (env : Env T P) (s : NetworkSync T P)
    (hc : s.m_bConnected = true) :
    treeCalls (onHeaders env s []).events = [TreeCall.flushToFile s.m_blockTreeFile] ∧
    peerCalls (onHeaders env s []).events = [] ∧
    ((env.flushToFile s.m_blockTree s.m_blockTreeFile).1 = none →
      (onHeaders env s []).state.m_bHeadersSynched = true ∧
      (onHeaders env s []).state.m_blockTree =
        (env.flushToFile s.m_blockTree s.m_blockTreeFile).2 ∧
      (onHeaders env s []).events =
        [Event.notify (Notification.status "Flushing block chain to file..."),
          Event.tree (TreeCall.flushToFile s.m_blockTreeFile),
          Event.notify (Notification.status "Done flushing block chain to file"),
          Event.notify Notification.headersSynched]) ∧
    (∀ e, (env.flushToFile s.m_blockTree s.m_blockTreeFile).1 = some e →
      (onHeaders env s []).state.m_bHeadersSynched = s.m_bHeadersSynched ∧
      Notification.headersSynched ∉ emissions (onHeaders env s []).events) := by
  cases h : env.flushToFile s.m_blockTree s.m_blockTreeFile with
  | mk r t1 =>
    cases r with
    | none => simp [onHeaders, hc, h, treeCalls, peerCalls]
    | some e => simp [onHeaders, hc, h, treeCalls, peerCalls, emissions]

/-- C11 at a concrete state: an empty headers message to a connected synchroniser over
`memTree3` sets `m_bHeadersSynched`. -/
theorem C11_onHeaders_empty_witness :
    (onHeaders memEnv memConnected []).state.m_bHeadersSynched = true :=
  ((C11_onHeaders_empty memEnv memConnected rfl).2.2.1 rfl).1

/-- C12: in a connected state, given a non-empty list of headers whose insertions all
succeed and a tree that then returns the locator for `getLocatorHashes(1)`, the headers
handler notifies `fetchingHeaders`, then calls `insertHeader` on every header in list order,
then notifies `blockTreeChanged` and one status, and finally makes its only peer call,
`getHeaders` with that locator; it leaves `m_bHeadersSynched` false when an insertion
reported a new best chain and at its entry value otherwise, notifies no `headersSynched`
and does not flush; `m_bFetchingHeaders` is true at the end when the `getHeaders` call
returns. -/
theorem C12_onHeaders_batch (env : Env T P) (s : NetworkSync T P)
    (headers : List CoinBlockHeader) (locator : List bytes_t)
    (hc : s.m_bConnected = true) (hne : headers ≠ [])
    (hok : insertionsSucceed env headers s.m_blockTree = true)
    (hloc : env.getLocatorHashes (insertedTree env headers s.m_blockTree) 1
      = Except.ok locator) :
    (onHeaders env s headers).events =
      Event.notify Notification.fetchingHeaders :: insertCalls headers ++
        [Event.notify Notification.blockTreeChanged,
          Event.notify (Notification.status
            (bestHeightStatus env (insertedTree env headers s.m_blockTree))),
          Event.peer (PeerCall.getHeaders locator)] ∧
    (onHeaders env s headers).state.m_bHeadersSynched =
      (if insertionsNewBest env headers s.m_blockTree = true then false
        else s.m_bHeadersSynched) ∧
    (onHeaders env s headers).state.m_blockTree = insertedTree env headers s.m_blockTree ∧
    ((env.peer s.m_peer (PeerCall.getHeaders locator)).1 = none →
      (onHeaders env s headers).state.m_bFetchingHeaders = true) ∧
    Notification.headersSynched ∉ emissions (onHeaders env s headers).events ∧
    (∀ file, TreeCall.flushToFile file ∉ treeCalls (onHeaders env s headers).events) := by
  obtain ⟨h1, h2, h3, h4⟩ :=
    insertHeaders_succeed env headers s.m_blockTree s.m_bHeadersSynched hok
  have hlen : headers.length > 0 := List.length_pos.mpr hne
  have hev : (onHeaders env s headers).events =
      Event.notify Notification.fetchingHeaders :: insertCalls headers ++
        [Event.notify Notification.blockTreeChanged,
          Event.notify (Notification.status
            (bestHeightStatus env (insertedTree env headers s.m_blockTree))),
          Event.peer (PeerCall.getHeaders locator)] ∧
      (onHeaders env s headers).state.m_bHeadersSynched =
        (if insertionsNewBest env headers s.m_blockTree = true then false
          else s.m_bHeadersSynched) ∧
      (onHeaders env s headers).state.m_blockTree = insertedTree env headers s.m_blockTree ∧
      ((env.peer s.m_peer (PeerCall.getHeaders locator)).1 = none →
        (onHeaders env s headers).state.m_bFetchingHeaders = true) := by
    cases hp : env.peer s.m_peer (PeerCall.getHeaders locator) with
    | mk r p1 =>
      cases r <;> simp [onHeaders, hc, hlen, h1, h2, h3, h4, hloc, hp]
  refine ⟨hev.1, hev.2.1, hev.2.2.1, hev.2.2.2, ?_, ?_⟩
  · rw [mem_emissions, hev.1]
    simp [insertCalls]
  · intro file hmem
    have hmem2 : Event.tree (TreeCall.flushToFile file) ∈ (onHeaders env s headers).events := by
      generalize (onHeaders env s headers).events = events at hmem
      induction events with
      | nil => simp [treeCalls] at hmem
      | cons ev rest ih =>
        cases ev with
        | notify n => simp only [treeCalls] at hmem; exact List.mem_cons_of_mem _ (ih hmem)
        | peer c => simp only [treeCalls] at hmem; exact List.mem_cons_of_mem _ (ih hmem)
        | tree c =>
          simp only [treeCalls, List.mem_cons] at hmem
          rcases hmem with h | h
          · rw [h]; exact List.mem_cons_self _ _
          · exact List.mem_cons_of_mem _ (ih h)
    rw [hev.1] at hmem2
    simp [insertCalls] at hmem2

/-- C12 at a concrete state: one header on top of the tip of `memTree3` is inserted and the
next batch is requested. -/
theorem C12_onHeaders_batch_witness :
    peerCalls (onHeaders memEnv memConnected [tipChild]).events =
      [PeerCall.getHeaders [[101], [100]]] := by
  have h := (C12_onHeaders_batch memEnv memConnected [tipChild] [[101], [100]] rfl
    (by decide) rfl rfl).1
  rw [h]
  rfl

/-- C13: in a connected state, given a list of headers in which the insertion of `bad` is
the first to throw (the headers `before` it are inserted, `after` follows it), the headers
handler notifies `fetchingHeaders` and exactly one `blockTreeError` and nothing else (no
`blockTreeChanged`, no `headersSynched`), calls `insertHeader` on the headers up to `bad`
and on none after it, makes no peer call, and ends with `m_bFetchingHeaders` false; the tree
is the one the headers before the failure were inserted in, as the failing call left it. -/
theorem C13_onHeaders_insertion_fails (env : Env T P) (s : NetworkSync T P)
    (before : List CoinBlockHeader) (bad : CoinBlockHeader) (after : List CoinBlockHeader)
    (e : String) (t1 : T) (hc : s.m_bConnected = true)
    (hok : insertionsSucceed env before s.m_blockTree = true)
    (hbad : env.insertHeader (insertedTree env before s.m_blockTree) bad
      = (Except.error e, t1)) :
    emissions (onHeaders env s (before ++ bad :: after)).events =
      [Notification.fetchingHeaders,
        Notification.blockTreeError (insertionErrorMessage bad e)] ∧
    treeCalls (onHeaders env s (before ++ bad :: after)).events =
      (before ++ [bad]).map TreeCall.insertHeader ∧
    peerCalls (onHeaders env s (before ++ bad :: after)).events = [] ∧
    (onHeaders env s (before ++ bad :: after)).state.m_bFetchingHeaders = false ∧
    (onHeaders env s (before ++ bad :: after)).state.m_blockTree = t1 ∧
    (onHeaders env s (before ++ bad :: after)).thrown = none := by
  obtain ⟨h1, h2, h3, h4⟩ :=
    insertHeaders_fail env before bad after s.m_blockTree s.m_bHeadersSynched e t1 hok hbad
  have hlen : (before ++ bad :: after).length > 0 := by simp
  have hcalls : ∀ l : List CoinBlockHeader,
      emissions (insertCalls l) = [] ∧ peerCalls (insertCalls l) = [] ∧
      treeCalls (insertCalls l) = l.map TreeCall.insertHeader := by
    intro l
    induction l with
    | nil => simp [insertCalls, emissions, peerCalls, treeCalls]
    | cons a l ih =>
      simp only [insertCalls, List.map_cons, emissions, peerCalls, treeCalls] at ih ⊢
      simp [ih]
  have happ : ∀ a b : List Event,
      peerCalls (a ++ b) = peerCalls a ++ peerCalls b ∧
      treeCalls (a ++ b) = treeCalls a ++ treeCalls b := by
    intro a b
    induction a with
    | nil => simp [peerCalls, treeCalls]
    | cons ev a ih => cases ev <;> simp [peerCalls, treeCalls, ih]
  have hres : (onHeaders env s (before ++ bad :: after)).events =
      Event.notify Notification.fetchingHeaders ::
        (insertCalls (before ++ [bad]) ++
          [Event.notify (Notification.blockTreeError (insertionErrorMessage bad e))]) ∧
      (onHeaders env s (before ++ bad :: after)).state.m_bFetchingHeaders = false ∧
      (onHeaders env s (before ++ bad :: after)).state.m_blockTree = t1 ∧
      (onHeaders env s (before ++ bad :: after)).thrown = none := by
    simp only [onHeaders, hc, hlen, h1, h2, h4]
    simp
  obtain ⟨hev, hf, ht, hth⟩ := hres
  refine ⟨?_, ?_, ?_, hf, ht, hth⟩
  · rw [hev]
    simp only [emissions, emissions_append, (hcalls _).1]
    rfl
  · rw [hev]
    simp only [treeCalls, (happ _ _).2, (hcalls _).2.2]
    simp
  · rw [hev]
    simp only [peerCalls, (happ _ _).1, (hcalls _).2.1]
    rfl

/-- C13 at a concrete state: of three headers the second has no parent in the tree; the
first stays inserted and the third is never tried. -/
theorem C13_onHeaders_insertion_fails_witness :
    treeCalls (onHeaders memEnv memConnected [tipChild, orphanHeader, sideHeader]).events =
      [TreeCall.insertHeader tipChild, TreeCall.insertHeader orphanHeader] :=
  (C13_onHeaders_insertion_fails memEnv memConnected [tipChild] orphanHeader [sideHeader]
    "InvalidHeader: parent missing" (insertedTree memEnv [tipChild] memTree3) rfl rfl rfl).2.1

/-! ## A flush that fails -/

/-- C14 as stated fails: with a snapshot file that cannot be written, none of the three
handlers notifies `blockTreeError`. The headers handler emits only the status that precedes
the flush and clears `m_bFetchingHeaders`, which was set; the block handler ends with the
status "NetworkSync block handler error."; the Merkle block handler notifies a protocol
error. -/
theorem C14_counterexample :
    memConnectedReadOnly.m_bConnected = true ∧
    (memEnv.flushToFile memConnectedReadOnly.m_blockTree "").1 = some "flush failed" ∧
    emissions (onHeaders memEnv memConnectedReadOnly []).events =
      [Notification.status "Flushing block chain to file..."] ∧
    memConnectedReadOnly.m_bFetchingHeaders = true ∧
    (onHeaders memEnv memConnectedReadOnly []).state.m_bFetchingHeaders = false ∧
    emissions (onBlock memEnv memConnectedReadOnly (CoinBlock.mk tipChild [])).events =
      [Notification.status "Flushing block chain to file...",
        Notification.status "NetworkSync block handler error."] ∧
    emissions (onMerkleBlock memEnv memConnectedReadOnly (mkMerkleBlock tipChild [])).events =
      [Notification.status "Flushing block chain to file...",
        Notification.protocolError "flush failed"] := by
  decide

/-- C14, amended: when `flushToFile` throws inside a handler of a connected synchroniser, no
`blockTreeError` is notified. The headers handler (empty list) emits nothing after the
status that precedes the flush and clears `m_bFetchingHeaders`; the block handler (header
not in the tree, insertion reports a new best chain) ends with the status "NetworkSync block
handler error."; the Merkle block handler (empty queue, header not in the tree, insertion
reports a new best chain) notifies a protocol error with the message of the exception.
In all three every other member keeps its value, and the tree is the one the failed flush
left (with the new header inserted, for the block and Merkle block handlers). -/
theorem C14_flush_failure (env : Env T P) (s : NetworkSync T P)
    (hc : s.m_bConnected = true) :
    (∀ e t1, env.flushToFile s.m_blockTree s.m_blockTreeFile = (some e, t1) →
      onHeaders env s [] =
        { state := { s with m_blockTree := t1, m_bFetchingHeaders := false },
          events := [Event.notify (Notification.status "Flushing block chain to file..."),
            Event.tree (TreeCall.flushToFile s.m_blockTreeFile)],
          thrown := none }) ∧
    (∀ (block : CoinBlock) e t1 t2,
      env.hasHeader s.m_blockTree block.blockHeader.hashLittleEndian = false →
      env.insertHeader s.m_blockTree block.blockHeader = (Except.ok true, t1) →
      env.flushToFile t1 s.m_blockTreeFile = (some e, t2) →
      onBlock env s block =
        { state := { s with m_blockTree := t2 },
          events := [Event.tree (TreeCall.insertHeader block.blockHeader),
            Event.notify (Notification.status "Flushing block chain to file..."),
            Event.tree (TreeCall.flushToFile s.m_blockTreeFile),
            Event.notify (Notification.status "NetworkSync block handler error.")],
          thrown := none }) ∧
    (∀ (merkleBlock : MerkleBlock) e t1 t2, s.m_currentMerkleTxHashes = [] →
      env.hasHeader s.m_blockTree merkleBlock.blockHeader.hashLittleEndian = false →
      env.insertHeader s.m_blockTree merkleBlock.blockHeader = (Except.ok true, t1) →
      env.flushToFile t1 s.m_blockTreeFile = (some e, t2) →
      onMerkleBlock env s merkleBlock =
        { state := { s with m_blockTree := t2 },
          events := [Event.tree (TreeCall.insertHeader merkleBlock.blockHeader),
            Event.notify (Notification.status "Flushing block chain to file..."),
            Event.tree (TreeCall.flushToFile s.m_blockTreeFile),
            Event.notify (Notification.protocolError e)],
          thrown := none }) := by
  refine ⟨?_, ?_, ?_⟩
  · intro e t1 hfl
    simp [onHeaders, hc, hfl]
  · intro block e t1 t2 hh hi hfl
    simp [onBlock, blockHandlerError, hc, hh, hi, hfl]
  · intro merkleBlock e t1 t2 hq hh hi hfl
    simp [onMerkleBlock, merkleProtocolError, hc, hq, hh, hi, hfl]

/-- C14 (amended) at a concrete state: an empty headers message while the snapshot file
cannot be written. -/
theorem C14_flush_failure_witness :
    (onHeaders memEnv memConnectedReadOnly []).events =
      [Event.notify (Notification.status "Flushing block chain to file..."),
        Event.tree (TreeCall.flushToFile "")] :=
  congrArg Result.events
    ((C14_flush_failure memEnv memConnectedReadOnly rfl).1 "flush failed" memTreeReadOnly rfl)

/-! ## When headers are synched -/

/-- C15 as stated fails: from a freshly constructed synchroniser, a `loadHeaders` whose load
fails ends with `m_bHeadersSynched` true, the genesis header as tip and no snapshot written;
and after a successful load, a block whose header extends the best chain while the snapshot
file cannot be written leaves `m_bHeadersSynched` true with a tip (104) that is not the tip
of the snapshot (102). -/
theorem C15_counterexample :
    isInitial (memInit memTreeEmpty) = true ∧
    (run memEnv (memInit memTreeEmpty)
      [Input.loadHeaders "headers.dat" true]).1.m_bHeadersSynched = true ∧
    (run memEnv (memInit memTreeEmpty)
      [Input.loadHeaders "headers.dat" true]).1.m_blockTree.tipHash? = some [100] ∧
    (run memEnv (memInit memTreeEmpty)
      [Input.loadHeaders "headers.dat" true]).1.m_blockTree.snapshotTipHash? = none ∧
    isInitial (memInit memTreeStale) = true ∧
    (run memEnv (memInit memTreeStale) runFlushFails).1.m_bHeadersSynched = true ∧
    (run memEnv (memInit memTreeStale) runFlushFails).1.m_blockTree.tipHash? = some [104] ∧
    (run memEnv (memInit memTreeStale) runFlushFails).1.m_blockTree.snapshotTipHash?
      = some [102] := by
  decide

/-- The headers handler's loop leaves the flag false when an insertion made up to the first
failure reported a new best chain, and as it was otherwise. -/
theorem insertHeaders_headersSynched (env : Env T P) (headers : List CoinBlockHeader) (t : T)
    (hs : Bool) :
    (insertHeaders env headers t hs).headersSynched =
      (if insertionsNewBest env headers t = true then false else hs) := by
  induction headers generalizing t hs with
  | nil => simp [insertHeaders, insertionsNewBest]
  | cons item rest ih =>
    cases h : env.insertHeader t item with
    | mk r t1 =>
      cases r with
      | error e => simp [insertHeaders, insertionsNewBest, h]
      | ok b =>
        simp only [insertHeaders, h, insertionsNewBest]
        refine Eq.trans (ih t1 _) ?_
        cases b <;> simp

theorem merkleBlockContent_tree (env : Env T P) (s : NetworkSync T P) (pre : List Event)
    (merkleBlock : MerkleBlock) :
    (merkleBlockContent env s pre merkleBlock).state.m_blockTree = s.m_blockTree ∧
    (merkleBlockContent env s pre merkleBlock).state.m_bHeadersSynched = s.m_bHeadersSynched ∧
    (merkleBlockContent env s pre merkleBlock).state.m_blockTreeFile = s.m_blockTreeFile := by
  unfold merkleBlockContent merkleProtocolError
  repeat' first | split | dsimp only
  all_goals exact ⟨rfl, rfl, rfl⟩

/-- The operations that never assign `m_bHeadersSynched`: all but `loadHeaders` and the
headers, block and Merkle block handlers. -/
theorem step_headersSynched (env : Env T P) (s : NetworkSync T P) (i : Input)
    (h1 : ∀ file check, i ≠ Input.loadHeaders file check)
    (h2 : ∀ headers, i ≠ Input.onHeaders headers)
    (h3 : ∀ block, i ≠ Input.onBlock block)
    (h4 : ∀ mb, i ≠ Input.onMerkleBlock mb) :
    (step env s i).state.m_bHeadersSynched = s.m_bHeadersSynched := by
  cases i with
  | loadHeaders file check => exact absurd rfl (h1 file check)
  | onHeaders headers => exact absurd rfl (h2 headers)
  | onBlock block => exact absurd rfl (h3 block)
  | onMerkleBlock mb => exact absurd rfl (h4 mb)
  | setCoinParams p =>
    simp only [step, NetworkSync.setCoinParams]
    split <;> rfl
  | setBloomFilter f =>
    simp only [step, NetworkSync.setBloomFilter, NetworkSync.forward]
    split <;> rfl
  | start host port =>
    simp only [step]
    unfold NetworkSync.start
    repeat' first | split | dsimp only
  | stop =>
    simp only [step]
    unfold NetworkSync.stop
    repeat' first | split | dsimp only
  | syncBlocks l t =>
    simp only [step]
    unfold NetworkSync.syncBlocks syncBlocksFrom
    repeat' first | split | dsimp only
  | stopSyncBlocks =>
    simp only [step, NetworkSync.stopSyncBlocks]
    split <;> rfl
  | sendTx tx => rfl
  | getTx hash => rfl
  | getTxs hashes => rfl
  | getMempool => rfl
  | getFilteredBlock hash => rfl
  | onOpen =>
    simp only [step]
    unfold onOpen openGetHeaders
    repeat' first | split | dsimp only
  | onClose =>
    simp only [step]
    unfold onClose NetworkSync.stop
    repeat' first | split | dsimp only
  | onTimeout => rfl
  | onConnectionError e => rfl
  | onProtocolError e => rfl
  | onInv items =>
    simp only [step]
    unfold onInv
    repeat' first | split | dsimp only
  | onTx tx =>
    simp only [step]
    unfold onTx txProtocolError
    repeat' first | split | dsimp only

theorem merkleBlockContent_pre (env : Env T P) (s : NetworkSync T P) (pre : List Event)
    (merkleBlock : MerkleBlock) (ev : Event) (h : ev ∈ pre) :
    ev ∈ (merkleBlockContent env s pre merkleBlock).events := by
  rcases merkleBlockContent_shape env s pre merkleBlock with
    ⟨_, tail, h2, _⟩ | ⟨_, _, _, tail, _, _, _, h2, _⟩
  · rw [h2]; exact List.mem_append_left _ h
  · rw [h2]; exact List.mem_append_left _ h

theorem onHeaders_headersSynched (env : Env T P) (s : NetworkSync T P)
    (headers : List CoinBlockHeader)
    (h : (onHeaders env s headers).state.m_bHeadersSynched = true) :
    s.m_bHeadersSynched = true ∨
    ∃ t, (env.flushToFile t s.m_blockTreeFile).1 = none ∧
      (onHeaders env s headers).state.m_blockTree = (env.flushToFile t s.m_blockTreeFile).2 ∧
      Event.tree (TreeCall.flushToFile s.m_blockTreeFile) ∈ (onHeaders env s headers).events := by
  have hl := insertHeaders_headersSynched env headers s.m_blockTree s.m_bHeadersSynched
  have hl2 : (insertHeaders env headers s.m_blockTree s.m_bHeadersSynched).headersSynched = true
      → s.m_bHeadersSynched = true := by
    rw [hl]
    split
    · intro h; exact absurd h (by decide)
    · exact id
  revert h
  unfold onHeaders
  repeat' first | split | dsimp only
  all_goals first
    | exact fun h => Or.inl h
    | exact fun h => Or.inl (hl2 h)
    | (rename_i t1 hfl
       exact fun _ => Or.inr ⟨s.m_blockTree, by rw [hfl], by rw [hfl], by simp⟩)

theorem onBlock_headersSynched (env : Env T P) (s : NetworkSync T P) (block : CoinBlock)
    (h : (onBlock env s block).state.m_bHeadersSynched = true) :
    s.m_bHeadersSynched = true ∨
    ∃ t, (env.flushToFile t s.m_blockTreeFile).1 = none ∧
      (onBlock env s block).state.m_blockTree = (env.flushToFile t s.m_blockTreeFile).2 ∧
      Event.tree (TreeCall.flushToFile s.m_blockTreeFile) ∈ (onBlock env s block).events := by
  revert h
  unfold onBlock blockHandlerError
  repeat' first | split | dsimp only
  all_goals first
    | exact fun h => Or.inl h
    | (rename_i t1 _ _ t2 hfl
       exact fun _ => Or.inr ⟨t1, by rw [hfl], by rw [hfl], by simp⟩)

theorem onMerkleBlock_headersSynched (env : Env T P) (s : NetworkSync T P)
    (merkleBlock : MerkleBlock)
    (h : (onMerkleBlock env s merkleBlock).state.m_bHeadersSynched = true) :
    s.m_bHeadersSynched = true ∨
    ∃ t, (env.flushToFile t s.m_blockTreeFile).1 = none ∧
      (onMerkleBlock env s merkleBlock).state.m_blockTree =
        (env.flushToFile t s.m_blockTreeFile).2 ∧
      Event.tree (TreeCall.flushToFile s.m_blockTreeFile) ∈
        (onMerkleBlock env s merkleBlock).events := by
  revert h
  unfold onMerkleBlock merkleProtocolError
  repeat' first | split | dsimp only
  all_goals first
    | exact fun h => Or.inl h
    | (intro h
       rw [(merkleBlockContent_tree env _ _ _).2.1] at h
       exact Or.inl h)
    | (rename_i t1 _ _ t2 hfl
       refine fun _ => Or.inr ⟨t1, by rw [hfl], ?_, ?_⟩
       · rw [(merkleBlockContent_tree env _ _ _).1, hfl]
       · exact merkleBlockContent_pre env _ _ _ _ (by simp))
    | (intro h; simp at h)

/-- C15, amended: an operation that turns `m_bHeadersSynched` from false to true is either
`loadHeaders` or one of the headers, block and Merkle block handlers, and a handler does so
only after `flushToFile` of the tree to the configured file has returned, leaving the tree
as that flush left it; and the headers handler leaves `m_bHeadersSynched` false whenever an
insertion of the batch reports a new best chain. -/
theorem C15_headersSynched_set (env : Env T P) (s : NetworkSync T P) :
    (∀ i : Input, s.m_bHeadersSynched = false →
      (step env s i).state.m_bHeadersSynched = true →
      (∃ file check, i = Input.loadHeaders file check) ∨
      (((∃ headers, i = Input.onHeaders headers) ∨ (∃ block, i = Input.onBlock block) ∨
          (∃ mb, i = Input.onMerkleBlock mb)) ∧
        ∃ t, (env.flushToFile t s.m_blockTreeFile).1 = none ∧
          (step env s i).state.m_blockTree = (env.flushToFile t s.m_blockTreeFile).2 ∧
          Event.tree (TreeCall.flushToFile s.m_blockTreeFile) ∈ (step env s i).events)) ∧
    (∀ headers, s.m_bConnected = true → insertionsNewBest env headers s.m_blockTree = true →
      (onHeaders env s headers).state.m_bHeadersSynched = false) := by
  refine ⟨?_, ?_⟩
  · intro i hs hs2
    have hne : s.m_bHeadersSynched ≠ true := by rw [hs]; decide
    by_cases h1 : ∃ file check, i = Input.loadHeaders file check
    · exact Or.inl h1
    · by_cases h2 : ∃ headers, i = Input.onHeaders headers
      · obtain ⟨headers, rfl⟩ := h2
        exact Or.inr ⟨Or.inl ⟨headers, rfl⟩,
          (onHeaders_headersSynched env s headers hs2).resolve_left hne⟩
      · by_cases h3 : ∃ block, i = Input.onBlock block
        · obtain ⟨block, rfl⟩ := h3
          exact Or.inr ⟨Or.inr (Or.inl ⟨block, rfl⟩),
            (onBlock_headersSynched env s block hs2).resolve_left hne⟩
        · by_cases h4 : ∃ mb, i = Input.onMerkleBlock mb
          · obtain ⟨mb, rfl⟩ := h4
            exact Or.inr ⟨Or.inr (Or.inr ⟨mb, rfl⟩),
              (onMerkleBlock_headersSynched env s mb hs2).resolve_left hne⟩
          · have h := step_headersSynched env s i (fun f c e => h1 ⟨f, c, e⟩)
              (fun hd e => h2 ⟨hd, e⟩) (fun b e => h3 ⟨b, e⟩) (fun mb e => h4 ⟨mb, e⟩)
            rw [h] at hs2
            exact absurd hs2 hne
  · intro headers hc hnb
    have hl := insertHeaders_headersSynched env headers s.m_blockTree s.m_bHeadersSynched
    rw [hnb] at hl
    have hlen : headers.length > 0 := by
      cases headers with
      | nil => simp [insertionsNewBest] at hnb
      | cons a l => simp
    have hl2 : (insertHeaders env headers s.m_blockTree s.m_bHeadersSynched).headersSynched
        = false := by simpa using hl
    unfold onHeaders
    rw [if_neg (by simp [hc]), if_pos hlen]
    repeat' first | split | dsimp only
    all_goals exact hl2

/-- C15 (amended) at a concrete state: a header on top of the tip of `memTree3` reports a
new best chain and the headers handler leaves `m_bHeadersSynched` false. -/
theorem C15_headersSynched_set_witness :
    (onHeaders memEnv memIdle [tipChild]).state.m_bHeadersSynched = false :=
  (C15_headersSynched_set memEnv memIdle).2 [tipChild] rfl rfl

/-! ## The start of a block download -/

theorem peerCalls_append (a b : List Event) :
    peerCalls (a ++ b) = peerCalls a ++ peerCalls b := by
  induction a with
  | nil => simp [peerCalls]
  | cons ev a ih => cases ev <;> simp [peerCalls, ih]

/-- The loop of `syncBlocks` finds the header the specification describes. -/
theorem findLocatorHeader_spec (env : Env T P) (t : T) (locatorHashes : List bytes_t) :
    (findLocatorHeader env t locatorHashes).1 = specLocatorHeader env t locatorHashes := by
  induction locatorHashes with
  | nil => rfl
  | cons hash rest ih =>
    simp only [specLocatorHeader, List.findSome?_cons] at ih ⊢
    unfold findLocatorHeader
    cases h : env.getHeader t hash with
    | error e => simpa using ih
    | ok header =>
      cases hb : header.inBestChain with
      | true => simp [hb]
      | false => simpa [hb] using ih

/-- The loop of `syncBlocks` emits status notifications only. -/
theorem findLocatorHeader_status (env : Env T P) (t : T) (locatorHashes : List bytes_t) :
    ∀ ev ∈ (findLocatorHeader env t locatorHashes).2,
      ∃ msg, ev = Event.notify (Notification.status msg) := by
  induction locatorHashes with
  | nil => intro ev h; simp [findLocatorHeader] at h
  | cons hash rest ih =>
    unfold findLocatorHeader
    split
    · split
      · intro ev h; simp at h
      · exact ih
    · intro ev h
      rcases List.mem_cons.mp h with h1 | h1
      · exact ⟨_, h1⟩
      · exact ih ev h1

theorem onlyStatus_facts (events : List Event)
    (h : ∀ ev ∈ events, ∃ msg, ev = Event.notify (Notification.status msg)) :
    peerCalls events = [] ∧ Notification.blocksSynched ∉ emissions events ∧
    Notification.fetchingBlocks ∉ emissions events := by
  induction events with
  | nil => simp [peerCalls, emissions]
  | cons ev rest ih =>
    obtain ⟨msg, rfl⟩ := h ev (List.mem_cons_self _ _)
    have ih2 := ih (fun e he => h e (List.mem_cons_of_mem _ he))
    simp [peerCalls, emissions, ih2]

/-- `syncBlocks` on a connected synchroniser, once the tip and the next height to request
are known. -/
theorem syncBlocks_connected (env : Env T P) (s : NetworkSync T P)
    (locatorHashes : List bytes_t) (startTime : Nat) (bestHeader : ChainHeader) (n : Int)
    (hc : s.m_bConnected = true)
    (hbest : env.getHeaderAt s.m_blockTree (-1) = Except.ok bestHeader)
    (hn : nextBlockRequestHeight env s.m_blockTree locatorHashes startTime = Except.ok n) :
    NetworkSync.syncBlocks env s locatorHashes startTime =
      syncBlocksFrom env (syncBlocksReset s)
        (findLocatorHeader env s.m_blockTree locatorHashes).2 bestHeader n := by
  unfold NetworkSync.syncBlocks
  rw [if_neg (by simp [hc])]
  dsimp only
  rw [hbest]
  dsimp only
  unfold nextBlockRequestHeight at hn
  cases hf : (findLocatorHeader env s.m_blockTree locatorHashes).1 with
  | some header =>
    rw [hf] at hn
    simp only [Except.ok.injEq] at hn
    rw [← hn]
    rfl
  | none =>
    rw [hf] at hn
    dsimp only at hn ⊢
    cases hb : env.getHeaderBefore s.m_blockTree startTime with
    | error e => rw [hb] at hn; simp at hn
    | ok header =>
      rw [hb] at hn
      simp only [Except.ok.injEq] at hn
      rw [← hn]
      rfl

/-- The end of `syncBlocks` when the next height to request is above the tip. -/
theorem syncBlocksFrom_done (env : Env T P) (s : NetworkSync T P) (pre : List Event)
    (bestHeader : ChainHeader) (n : Int) (h : bestHeader.height < n) :
    syncBlocksFrom env s pre bestHeader n =
      { state := { s with m_bBlocksSynched := true },
        events := pre ++ [Event.notify Notification.blocksSynched],
        thrown := none } := by
  unfold syncBlocksFrom
  rw [if_neg (by omega)]

/-- The end of `syncBlocks` when the next height to request is not above the tip. -/
theorem syncBlocksFrom_fetch (env : Env T P) (s : NetworkSync T P) (pre : List Event)
    (bestHeader : ChainHeader) (n : Int) (next : ChainHeader) (h : n ≤ bestHeader.height)
    (hnext : env.getHeaderAt s.m_blockTree n = Except.ok next) :
    syncBlocksFrom env s pre bestHeader n =
      { state :=
          { s with
            m_bFetchingBlocks := true,
            m_lastRequestedBlockHeight := toU32 n,
            m_peer := (env.peer s.m_peer
              (PeerCall.getFilteredBlock next.blockHeader.hashLittleEndian)).2 },
        events := pre ++
          [Event.notify (Notification.status (resynchingStatus n bestHeader.height)),
            Event.notify Notification.fetchingBlocks] ++
          [Event.notify (Notification.status (resynchingStatus n bestHeader.height
              ++ "Asking for block " ++ getHex next.blockHeader.hashLittleEndian)),
            Event.peer (PeerCall.getFilteredBlock next.blockHeader.hashLittleEndian)],
        thrown := (env.peer s.m_peer
          (PeerCall.getFilteredBlock next.blockHeader.hashLittleEndian)).1 } := by
  unfold syncBlocksFrom
  rw [if_pos (by omega)]
  dsimp only
  rw [hnext]

/-- C17: `syncBlocks` on a synchroniser that is not connected throws and changes nothing. On
a connected one, with the tip and the next height to request known (the value the `int`
local `nextBlockRequestHeight` of the code holds): when that height is
above the height of the tip it sets `m_bBlocksSynched`, notifies `blocksSynched`, makes no
peer call, does not notify `fetchingBlocks` and leaves `m_bFetchingBlocks` false; otherwise
it sets `m_bFetchingBlocks`, notifies `fetchingBlocks`, makes exactly one peer call,
`getFilteredBlock` for the header the tree returns at that height, sets
`m_lastRequestedBlockHeight` to that height and does not notify `blocksSynched`. -/
theorem C17_syncBlocks_branches (env : Env T P) (s : NetworkSync T P)
    (locatorHashes : List bytes_t) (startTime : Nat) :
    (s.m_bConnected = false →
      NetworkSync.syncBlocks env s locatorHashes startTime =
        { state := s, events := [],
          thrown := some "NetworkSync::syncBlocks() - must connect before synching." }) ∧
    (s.m_bConnected = true → ∀ bestHeader n,
      env.getHeaderAt s.m_blockTree (-1) = Except.ok bestHeader →
      nextBlockRequestHeight env s.m_blockTree locatorHashes startTime = Except.ok n →
      (bestHeader.height < n →
        (NetworkSync.syncBlocks env s locatorHashes startTime).state.m_bBlocksSynched = true ∧
        (NetworkSync.syncBlocks env s locatorHashes startTime).state.m_bFetchingBlocks = false ∧
        Notification.blocksSynched ∈
          emissions (NetworkSync.syncBlocks env s locatorHashes startTime).events ∧
        Notification.fetchingBlocks ∉
          emissions (NetworkSync.syncBlocks env s locatorHashes startTime).events ∧
        peerCalls (NetworkSync.syncBlocks env s locatorHashes startTime).events = [] ∧
        (NetworkSync.syncBlocks env s locatorHashes startTime).thrown = none) ∧
      (n ≤ bestHeader.height → ∀ next, env.getHeaderAt s.m_blockTree n = Except.ok next →
        (NetworkSync.syncBlocks env s locatorHashes startTime).state.m_bFetchingBlocks = true ∧
        (NetworkSync.syncBlocks env s locatorHashes startTime).state.m_lastRequestedBlockHeight
          = toU32 n ∧
        (0 ≤ n → n < 4294967296 →
          ((NetworkSync.syncBlocks env s locatorHashes startTime).state.m_lastRequestedBlockHeight
            : Int) = n) ∧
        peerCalls (NetworkSync.syncBlocks env s locatorHashes startTime).events =
          [PeerCall.getFilteredBlock next.blockHeader.hashLittleEndian] ∧
        Notification.fetchingBlocks ∈
          emissions (NetworkSync.syncBlocks env s locatorHashes startTime).events ∧
        Notification.blocksSynched ∉
          emissions (NetworkSync.syncBlocks env s locatorHashes startTime).events)) := by
  refine ⟨?_, ?_⟩
  · intro hc
    simp [NetworkSync.syncBlocks, hc]
  · intro hc bestHeader n hbest hn
    have hst := onlyStatus_facts _ (findLocatorHeader_status env s.m_blockTree locatorHashes)
    rw [syncBlocks_connected env s locatorHashes startTime bestHeader n hc hbest hn]
    refine ⟨?_, ?_⟩
    · intro hlt
      rw [syncBlocksFrom_done env _ _ _ _ hlt]
      refine ⟨rfl, rfl, ?_, ?_, ?_, rfl⟩
      · simp [emissions_append, emissions]
      · simp [emissions_append, emissions, hst.2.2]
      · simp [peerCalls_append, peerCalls, hst.1]
    · intro hle next hnext
      rw [syncBlocksFrom_fetch env (syncBlocksReset s) _ _ _ next hle hnext]
      refine ⟨rfl, rfl, ?_, ?_, ?_, ?_⟩
      · intro h0 h1
        exact toU32_of_range n h0 h1
      · simp [peerCalls_append, peerCalls, hst.1]
      · simp [emissions_append, emissions]
      · simp [emissions_append, emissions, hst.2.1]

/-- C17 at a concrete state: with the tip of `memTree3` as locator there is nothing to
fetch and the synchroniser is synched at once. -/
theorem C17_syncBlocks_branches_witness :
    (NetworkSync.syncBlocks memEnv memIdle [[102]] 0).state.m_bBlocksSynched = true :=
  (((C17_syncBlocks_branches memEnv memIdle [[102]] 0).2 rfl
    (ChainHeader.mk (mkHeader 102 101 1020) true 2 3) 3 rfl rfl).1 (by decide)).1

/-- C16 as stated fails: with the header at height 1 of `memTree3` as locator, the first
block requested is the one at height 2 and the last requested height is 2, not that
header's; and with the tip as locator no block is requested at all. -/
theorem C16_counterexample :
    memIdle.m_bConnected = true ∧
    specLocatorHeader memEnv memIdle.m_blockTree [[101]] =
      some (ChainHeader.mk (mkHeader 101 100 1010) true 1 2) ∧
    peerCalls (NetworkSync.syncBlocks memEnv memIdle [[101]] 0).events =
      [PeerCall.getFilteredBlock [102]] ∧
    (NetworkSync.syncBlocks memEnv memIdle [[101]] 0).state.m_lastRequestedBlockHeight = 2 ∧
    peerCalls (NetworkSync.syncBlocks memEnv memIdle [[102]] 0).events = [] := by
  decide

/-- C16, amended: on a connected synchroniser whose tree returns its tip, `syncBlocks`
skips the locator hashes that are unknown or off the best chain and takes the first one, in
list order, whose header is in the tree and in the best chain. The download starts after
that header (its height plus one being a 32-bit `int`): when its height plus one is not
above the tip, the one block requested is the header the tree returns at that height plus
one and `m_lastRequestedBlockHeight` is that height plus one; when it is above the tip
nothing is requested and `m_bBlocksSynched` is set. When no locator hash qualifies, as for the empty list, the download starts from the
header before the start time: the block requested is the header the tree returns at its
height and `m_lastRequestedBlockHeight` is its height. -/
theorem C16_syncBlocks_start (env : Env T P) (s : NetworkSync T P)
    (locatorHashes : List bytes_t) (startTime : Nat) (bestHeader : ChainHeader)
    (hc : s.m_bConnected = true)
    (hbest : env.getHeaderAt s.m_blockTree (-1) = Except.ok bestHeader) :
    (∀ header next, specLocatorHeader env s.m_blockTree locatorHashes = some header →
      header.height + 1 ≤ bestHeader.height →
      env.getHeaderAt s.m_blockTree (header.height + 1) = Except.ok next →
      0 ≤ header.height + 1 → header.height < 2147483647 →
      peerCalls (NetworkSync.syncBlocks env s locatorHashes startTime).events =
        [PeerCall.getFilteredBlock next.blockHeader.hashLittleEndian] ∧
      ((NetworkSync.syncBlocks env s locatorHashes startTime).state.m_lastRequestedBlockHeight
        : Int) = header.height + 1) ∧
    (∀ header, specLocatorHeader env s.m_blockTree locatorHashes = some header →
      bestHeader.height < header.height + 1 →
      -2147483648 ≤ header.height → header.height < 2147483647 →
      peerCalls (NetworkSync.syncBlocks env s locatorHashes startTime).events = [] ∧
      (NetworkSync.syncBlocks env s locatorHashes startTime).state.m_bBlocksSynched = true) ∧
    (∀ header next, specLocatorHeader env s.m_blockTree locatorHashes = none →
      env.getHeaderBefore s.m_blockTree startTime = Except.ok header →
      header.height ≤ bestHeader.height →
      env.getHeaderAt s.m_blockTree header.height = Except.ok next →
      0 ≤ header.height → header.height < 4294967296 →
      peerCalls (NetworkSync.syncBlocks env s locatorHashes startTime).events =
        [PeerCall.getFilteredBlock next.blockHeader.hashLittleEndian] ∧
      ((NetworkSync.syncBlocks env s locatorHashes startTime).state.m_lastRequestedBlockHeight
        : Int) = header.height) ∧
    specLocatorHeader env s.m_blockTree [] = none := by
  have hst := onlyStatus_facts _ (findLocatorHeader_status env s.m_blockTree locatorHashes)
  have hfound : ∀ header, specLocatorHeader env s.m_blockTree locatorHashes = some header →
      -2147483648 ≤ header.height + 1 → header.height < 2147483647 →
      nextBlockRequestHeight env s.m_blockTree locatorHashes startTime
        = Except.ok (header.height + 1) := by
    intro header h hlo hhi
    unfold nextBlockRequestHeight
    rw [findLocatorHeader_spec, h]
    dsimp only
    rw [wrapInt32_of_range _ hlo (by omega)]
  refine ⟨?_, ?_, ?_, rfl⟩
  · intro header next hspec hle hnext h0 h1
    rw [syncBlocks_connected env s locatorHashes startTime bestHeader _ hc hbest
      (hfound header hspec (by omega) h1)]
    rw [syncBlocksFrom_fetch env (syncBlocksReset s) _ _ _ next hle hnext]
    refine ⟨?_, toU32_of_range _ h0 (by omega)⟩
    simp [peerCalls_append, peerCalls, hst.1]
  · intro header hspec hlt hlo hhi
    rw [syncBlocks_connected env s locatorHashes startTime bestHeader _ hc hbest
      (hfound header hspec (by omega) hhi)]
    rw [syncBlocksFrom_done env _ _ _ _ hlt]
    exact ⟨by simp [peerCalls_append, peerCalls, hst.1], rfl⟩
  · intro header next hspec hbefore hle hnext h0 h1
    have hn : nextBlockRequestHeight env s.m_blockTree locatorHashes startTime
        = Except.ok header.height := by
      unfold nextBlockRequestHeight
      rw [findLocatorHeader_spec, hspec]
      dsimp only
      rw [hbefore]
    rw [syncBlocks_connected env s locatorHashes startTime bestHeader _ hc hbest hn]
    rw [syncBlocksFrom_fetch env (syncBlocksReset s) _ _ _ next hle hnext]
    refine ⟨?_, toU32_of_range _ h0 h1⟩
    simp [peerCalls_append, peerCalls, hst.1]

/-- C16 (amended) at a concrete state: with the header at height 1 of `memTree3` as
locator the block at height 2 is requested. -/
theorem C16_syncBlocks_start_witness :
    peerCalls (NetworkSync.syncBlocks memEnv memIdle [[101]] 0).events =
      [PeerCall.getFilteredBlock [102]] :=
  ((C16_syncBlocks_start memEnv memIdle [[101]] 0
    (ChainHeader.mk (mkHeader 102 101 1020) true 2 3) rfl rfl).1
    (ChainHeader.mk (mkHeader 101 100 1010) true 1 2)
    (ChainHeader.mk (mkHeader 102 101 1020) true 2 3) rfl (by decide) rfl (by decide)
    (by decide)).1

/-! ## Stopping, loading and the bloom filter -/

/-- C18: `stop()` on a started synchroniser leaves `m_bStarted`, `m_bConnected`,
`m_bFetchingHeaders` and `m_bFetchingBlocks` false and calls `m_peer.stop()` once, and when
that call returns it notifies `stopped` once and nothing else; `stop()` on a synchroniser
that is not started changes nothing, calls nothing and emits nothing; so a second `stop()`
right after a first leaves the state of the first. -/
theorem C18_stop_idempotent (env : Env T P) (s : NetworkSync T P) :
    (s.m_bStarted = true →
      (NetworkSync.stop env s).state.m_bStarted = false ∧
      (NetworkSync.stop env s).state.m_bConnected = false ∧
      (NetworkSync.stop env s).state.m_bFetchingHeaders = false ∧
      (NetworkSync.stop env s).state.m_bFetchingBlocks = false ∧
      peerCalls (NetworkSync.stop env s).events = [PeerCall.stop] ∧
      ((env.peer s.m_peer PeerCall.stop).1 = none →
        (NetworkSync.stop env s).events =
          [Event.peer PeerCall.stop, Event.notify Notification.stopped])) ∧
    (s.m_bStarted = false →
      NetworkSync.stop env s = { state := s, events := [], thrown := none }) ∧
    NetworkSync.stop env (NetworkSync.stop env s).state =
      { state := (NetworkSync.stop env s).state, events := [], thrown := none } := by
  have hoff : ∀ s1 : NetworkSync T P, s1.m_bStarted = false →
      NetworkSync.stop env s1 = { state := s1, events := [], thrown := none } := by
    intro s1 h
    simp [NetworkSync.stop, h]
  have hon : s.m_bStarted = true →
      (NetworkSync.stop env s).state.m_bStarted = false ∧
      (NetworkSync.stop env s).state.m_bConnected = false ∧
      (NetworkSync.stop env s).state.m_bFetchingHeaders = false ∧
      (NetworkSync.stop env s).state.m_bFetchingBlocks = false ∧
      peerCalls (NetworkSync.stop env s).events = [PeerCall.stop] ∧
      ((env.peer s.m_peer PeerCall.stop).1 = none →
        (NetworkSync.stop env s).events =
          [Event.peer PeerCall.stop, Event.notify Notification.stopped]) := by
    intro h
    cases hp : env.peer s.m_peer PeerCall.stop with
    | mk r p1 => cases r <;> simp [NetworkSync.stop, h, hp, peerCalls]
  refine ⟨hon, hoff s, ?_⟩
  cases hs : s.m_bStarted with
  | false =>
    rw [hoff s hs]
    exact hoff s hs
  | true => exact hoff _ (hon hs).1

/-- C18 at a concrete state: stopping a started and connected synchroniser. -/
theorem C18_stop_idempotent_witness :
    (NetworkSync.stop memEnv memIdle).events =
      [Event.peer PeerCall.stop, Event.notify Notification.stopped] :=
  ((C18_stop_idempotent memEnv memIdle).1 rfl).2.2.2.2.2 rfl

/-- C19: `loadHeaders` ends with `m_bHeadersSynched` true and notifies `headersSynched`
exactly once, whatever `loadFromFile` does. When the load returns, no `blockTreeError` is
notified and the tree is the loaded one. When the load throws, `blockTreeError` is notified
first, then the tree is cleared and seeded with the genesis block of the chain parameters
(that call returning), and `headersSynched` is notified after the error. -/
theorem C19_loadHeaders (env : Env T P) (s : NetworkSync T P) (blockTreeFile : String)
    (bCheckProofOfWork : Bool) :
    (∀ t1, env.loadFromFile s.m_blockTree blockTreeFile bCheckProofOfWork = (none, t1) →
      (NetworkSync.loadHeaders env s blockTreeFile bCheckProofOfWork).state.m_bHeadersSynched
        = true ∧
      (NetworkSync.loadHeaders env s blockTreeFile bCheckProofOfWork).state.m_blockTree = t1 ∧
      emissions (NetworkSync.loadHeaders env s blockTreeFile bCheckProofOfWork).events =
        [Notification.status (bestHeightStatus env t1), Notification.headersSynched] ∧
      (NetworkSync.loadHeaders env s blockTreeFile bCheckProofOfWork).thrown = none) ∧
    (∀ e t1 t2,
      env.loadFromFile s.m_blockTree blockTreeFile bCheckProofOfWork = (some e, t1) →
      env.setGenesisBlock (env.clear t1) s.m_coinParams.genesis_block = (none, t2) →
      (NetworkSync.loadHeaders env s blockTreeFile bCheckProofOfWork).state.m_bHeadersSynched
        = true ∧
      (NetworkSync.loadHeaders env s blockTreeFile bCheckProofOfWork).state.m_blockTree = t2 ∧
      (NetworkSync.loadHeaders env s blockTreeFile bCheckProofOfWork).events =
        [Event.tree (TreeCall.loadFromFile blockTreeFile bCheckProofOfWork),
          Event.notify (Notification.blockTreeError e),
          Event.tree TreeCall.clear,
          Event.tree (TreeCall.setGenesisBlock s.m_coinParams.genesis_block),
          Event.notify (Notification.status
            "Block tree file not found. A new one will be created."),
          Event.notify Notification.headersSynched] ∧
      (NetworkSync.loadHeaders env s blockTreeFile bCheckProofOfWork).thrown = none) := by
  refine ⟨?_, ?_⟩
  · intro t1 hl
    simp [NetworkSync.loadHeaders, hl, emissions]
  · intro e t1 t2 hl hg
    simp [NetworkSync.loadHeaders, hl, hg]

/-- C19 at a concrete state: without a snapshot file the tree is re-seeded and holds the
genesis header only, at best height 0. -/
theorem C19_loadHeaders_witness :
    (NetworkSync.loadHeaders memEnv (memInit memTreeEmpty) "headers.dat"
      true).state.m_blockTree =
      { headers := [ChainHeader.mk genesisHeader true 0 1], snapshot := none,
        writable := true } ∧
    memEnv.getBestHeight
      { headers := [ChainHeader.mk genesisHeader true 0 1], snapshot := none,
        writable := true } = 0 :=
  ⟨((C19_loadHeaders memEnv (memInit memTreeEmpty) "headers.dat" true).2 "file not found"
    memTreeEmpty _ rfl rfl).2.1, rfl⟩

/-- C20 as stated fails: on a synchroniser that is not connected, `setBloomFilter` with a
filter that is set calls `m_peer.send` with the filter load message. -/
theorem C20_counterexample :
    (memInit memTree3).m_bConnected = false ∧ memFilter.isSet = true ∧
    peerCalls (NetworkSync.setBloomFilter memEnv (memInit memTree3) memFilter).events =
      [PeerCall.sendFilterLoad 3 5 1 [255]] := by
  decide

/-- C20, amended: `setBloomFilter` always stores the filter, and it calls `m_peer.send` with
the filter load message built from the filter (its `nHashFuncs`, `nTweak`, `nFlags` and
bytes) exactly when the filter is set, whether or not the synchroniser is connected; when
the filter is not set it makes no call and changes nothing else. -/
theorem C20_setBloomFilter (env : Env T P) (s : NetworkSync T P) (bloomFilter : BloomFilter) :
    (NetworkSync.setBloomFilter env s bloomFilter).state.m_bloomFilter = bloomFilter ∧
    (bloomFilter.isSet = true →
      (NetworkSync.setBloomFilter env s bloomFilter).events =
        [Event.peer (PeerCall.sendFilterLoad bloomFilter.nHashFuncs bloomFilter.nTweak
          bloomFilter.nFlags bloomFilter.filter)]) ∧
    (bloomFilter.isSet = false →
      NetworkSync.setBloomFilter env s bloomFilter =
        { state := { s with m_bloomFilter := bloomFilter }, events := [], thrown := none }) := by
  cases h : bloomFilter.isSet <;>
    simp [NetworkSync.setBloomFilter, NetworkSync.forward, filterLoad, h]

/-- C20 (amended) at a concrete state: a set filter given to a connected synchroniser is
sent. -/
theorem C20_setBloomFilter_witness :
    (NetworkSync.setBloomFilter memEnv memIdle memFilter).events =
      [Event.peer (PeerCall.sendFilterLoad 3 5 1 [255])] :=
  (C20_setBloomFilter memEnv memIdle memFilter).2.1 rfl

/-! ## Events while not connected -/

/-- C21 as stated fails: on a synchroniser that is not connected, the timeout, connection
error and protocol error handlers each notify. -/
theorem C21_counterexample :
    (memInit memTree3).m_bConnected = false ∧
    (onTimeout (memInit memTree3)).events = [Event.notify Notification.timeout] ∧
    (onConnectionError (memInit memTree3) "refused").events =
      [Event.notify (Notification.connectionError "refused")] ∧
    (onProtocolError (memInit memTree3) "bad message").events =
      [Event.notify (Notification.protocolError "bad message")] := by
  decide

/-- C21, amended: on a synchroniser that is not connected, the inventory, transaction,
headers, block and Merkle block handlers ignore the event (no member changes, nothing is
emitted, no call is made on the peer or the tree); the timeout, connection error and
protocol error handlers change no member and make no call either, but each notifies its
event. -/
theorem C21_not_connected (env : Env T P) (s : NetworkSync T P)
    (hc : s.m_bConnected = false) :
    (∀ items, onInv env s items = { state := s, events := [], thrown := none }) ∧
    (∀ tx, onTx s tx = { state := s, events := [], thrown := none }) ∧
    (∀ headers, onHeaders env s headers = { state := s, events := [], thrown := none }) ∧
    (∀ block, onBlock env s block = { state := s, events := [], thrown := none }) ∧
    (∀ merkleBlock,
      onMerkleBlock env s merkleBlock = { state := s, events := [], thrown := none }) ∧
    onTimeout s =
      { state := s, events := [Event.notify Notification.timeout], thrown := none } ∧
    (∀ error, onConnectionError s error =
      { state := s, events := [Event.notify (Notification.connectionError error)],
        thrown := none }) ∧
    (∀ error, onProtocolError s error =
      { state := s, events := [Event.notify (Notification.protocolError error)],
        thrown := none }) := by
  refine ⟨?_, ?_, ?_, ?_, ?_, rfl, fun _ => rfl, fun _ => rfl⟩
  · intro items
    unfold onInv
    rw [if_pos (by simp [hc])]
  · intro tx
    unfold onTx
    rw [if_pos (by simp [hc])]
  · intro headers
    unfold onHeaders
    rw [if_pos (by simp [hc])]
  · intro block
    unfold onBlock
    rw [if_pos (by simp [hc])]
  · intro merkleBlock
    unfold onMerkleBlock
    rw [if_pos (by simp [hc])]

/-- C21 (amended) at a concrete state: a Merkle block delivered to a synchroniser that has
not been started is ignored. -/
theorem C21_not_connected_witness :
    onMerkleBlock memEnv (memInit memTree3) (mkMerkleBlock (mkHeader 102 101 1020) []) =
      { state := memInit memTree3, events := [], thrown := none } :=
  (C21_not_connected memEnv (memInit memTree3) rfl).2.2.2.2.1 _

/-! ## The counters of the correlation buffer -/

/-- Every operation keeps the counters in agreement with the queue. -/
theorem step_countersAgree (env : Env T P) (s : NetworkSync T P) (i : Input)
    (h : countersAgree s) : countersAgree (step env s i).state := by
  by_cases htx : ∃ tx, i = Input.onTx tx
  · obtain ⟨tx, rfl⟩ := htx
    unfold countersAgree at h ⊢
    simp only [step]
    unfold onTx txProtocolError
    repeat' first | split | dsimp only
    all_goals first
      | exact h
      | (rename_i hq _ _
         rw [hq] at h
         simp only [List.length_cons] at h
         omega)
  · by_cases hmb : ∃ mb, i = Input.onMerkleBlock mb
    · obtain ⟨mb, rfl⟩ := hmb
      rcases onMerkleBlock_shape env s mb with
        ⟨h1, _⟩ | ⟨_, _, txhashes, height, chainWork, pre, tail, _, h1, _, _, _⟩
      · simp only [correlation, Prod.mk.injEq] at h1
        unfold countersAgree at h ⊢
        simp only [step]
        rw [h1.2.1, h1.2.2.1, h1.2.2.2]
        exact h
      · simp only [correlation, Prod.mk.injEq] at h1
        unfold countersAgree
        simp only [step]
        rw [h1.2.1, h1.2.2.1, h1.2.2.2]
        omega
    · have hf := (step_frame env s i (fun tx e => htx ⟨tx, e⟩) (fun mb e => hmb ⟨mb, e⟩)).1
      simp only [correlation, Prod.mk.injEq] at hf
      unfold countersAgree at h ⊢
      rw [hf.2.1, hf.2.2.1, hf.2.2.2]
      exact h

theorem run_countersAgree (env : Env T P) (inputs : List Input) (s : NetworkSync T P)
    (h : countersAgree s) : countersAgree (run env s inputs).1 := by
  induction inputs generalizing s with
  | nil => exact h
  | cons i rest ih => exact ih _ (step_countersAgree env s i h)

/-- An operation that notifies `merkleBlock` leaves the counters in agreement with the
queue, whatever they were. -/
theorem step_merkleBlock_countersAgree (env : Env T P) (s : NetworkSync T P) (i : Input)
    (b : ChainMerkleBlock) (h : Notification.merkleBlock b ∈ emissions (step env s i).events) :
    countersAgree (step env s i).state := by
  rw [mem_emissions] at h
  by_cases htx : ∃ tx, i = Input.onTx tx
  · obtain ⟨tx, rfl⟩ := htx
    revert h
    simp only [step]
    unfold onTx txProtocolError
    repeat' first | split | dsimp only
    all_goals (intro h; simp at h)
  · by_cases hmb : ∃ mb, i = Input.onMerkleBlock mb
    · obtain ⟨mb, rfl⟩ := hmb
      rcases onMerkleBlock_shape env s mb with
        ⟨_, h2⟩ | ⟨_, _, txhashes, height, chainWork, pre, tail, _, h1, _, _, _⟩
      · have hc := noContent_mem h2 h
        simp [Event.isContent] at hc
      · simp only [correlation, Prod.mk.injEq] at h1
        unfold countersAgree
        simp only [step]
        rw [h1.2.1, h1.2.2.1, h1.2.2.2]
        omega
    · have hf := (step_frame env s i (fun tx e => htx ⟨tx, e⟩) (fun mb e => hmb ⟨mb, e⟩)).2
      have hc := noContent_mem hf h
      simp [Event.isContent] at hc

/-- C22: in every state reached by a run in which a Merkle block has been accepted while
fetching blocks (a `merkleBlock` has been notified), the index plus the number of hashes
still expected is the count, so the index is at most the count and the queue is empty
exactly when the index equals the count; and every member function and handler keeps that
equation. -/
theorem C22_counters_invariant (env : Env T P) (s0 : NetworkSync T P) (inputs : List Input)
    (b : ChainMerkleBlock)
    (hacc : Notification.merkleBlock b ∈ emissions (run env s0 inputs).2) :
    countersAgree (run env s0 inputs).1 ∧
    (run env s0 inputs).1.m_currentMerkleTxIndex ≤
      (run env s0 inputs).1.m_currentMerkleTxCount ∧
    ((run env s0 inputs).1.m_currentMerkleTxHashes = [] ↔
      (run env s0 inputs).1.m_currentMerkleTxIndex =
        (run env s0 inputs).1.m_currentMerkleTxCount) ∧
    (∀ (s : NetworkSync T P) (i : Input), countersAgree s →
      countersAgree (step env s i).state) := by
  have hrun : countersAgree (run env s0 inputs).1 := by
    induction inputs generalizing s0 with
    | nil => simp [run, emissions] at hacc
    | cons i rest ih =>
      simp only [run, emissions_append, List.mem_append] at hacc ⊢
      rcases hacc with h | h
      · exact run_countersAgree env rest _ (step_merkleBlock_countersAgree env s0 i b h)
      · exact ih _ h
  refine ⟨hrun, ?_, ?_, fun s i h => step_countersAgree env s i h⟩
  · unfold countersAgree at hrun
    omega
  · unfold countersAgree at hrun
    constructor
    · intro h
      rw [h] at hrun
      simpa using hrun
    · intro h
      have hl : (run env s0 inputs).1.m_currentMerkleTxHashes.length = 0 := by omega
      exact List.length_eq_zero.mp hl

/-- C22 at a concrete run: after the block at height 1 of `memTree3` has been accepted and
one of its two transactions delivered, index 1 plus one expected hash is the count 2. -/
theorem C22_counters_invariant_witness :
    countersAgree (run memEnv (memInit memTree3)
      [Input.start "host" "", Input.onOpen, Input.syncBlocks [] 1010,
        Input.onMerkleBlock (mkMerkleBlock (mkHeader 101 100 1010) [7, 8]),
        Input.onTx (mkTx 7)]).1 :=
  (C22_counters_invariant memEnv (memInit memTree3) _
    (ChainMerkleBlock.mk (mkMerkleBlock (mkHeader 101 100 1010) [7, 8]) true 1 2)
    (by decide)).1

/-! ## Session state across a stop -/

theorem stop_session (env : Env T P) (s : NetworkSync T P) :
    session (NetworkSync.stop env s).state = session s := by
  unfold NetworkSync.stop
  repeat' first | split | dsimp only
  all_goals rfl

theorem stopSyncBlocks_session (s : NetworkSync T P) :
    session (NetworkSync.stopSyncBlocks s).state = session s := by
  unfold NetworkSync.stopSyncBlocks
  split <;> rfl

theorem start_session (env : Env T P) (s : NetworkSync T P) (host port : String) :
    session (NetworkSync.start env s host port).state = session s := by
  unfold NetworkSync.start
  repeat' first | split | dsimp only
  all_goals rfl

theorem onOpen_session (env : Env T P) (s : NetworkSync T P) :
    session (onOpen env s).state = session s ∧ (onOpen env s).state.m_bConnected = true := by
  unfold onOpen openGetHeaders
  repeat' first | split | dsimp only
  all_goals exact ⟨rfl, rfl⟩

theorem restart_session (env : Env T P) (s : NetworkSync T P) (host port : String) :
    session (run env s (restart host port)).1 = session s ∧
    (run env s (restart host port)).1.m_bConnected = true := by
  simp only [restart, run, step]
  refine ⟨?_, (onOpen_session env _).2⟩
  rw [(onOpen_session env _).1, start_session, stop_session]

theorem onTx_not_synched (s : NetworkSync T P) (tx tx2 : Transaction)
    (hs : s.m_bBlocksSynched = false) :
    Notification.newTx tx2 ∉ emissions (onTx s tx).events := by
  unfold onTx txProtocolError
  repeat' first | split | dsimp only
  all_goals simp_all [emissions]

/-- C23: `stop()`, `stopSyncBlocks()`, `start()` and the open handler leave
`m_bHeadersSynched`, `m_bBlocksSynched`, `m_bBlocksFetched`, `m_lastRequestedBlockHeight`,
the current Merkle block, the index, the count and the queue of expected hashes as they
are. So after a stop, a start and the opening of the connection the synchroniser is
connected with the session state of before: a transaction is passed on as `newTx` exactly
when `m_bBlocksSynched` was true before the stop, and when the queue was not empty before
the stop the next Merkle block is answered with the protocol error "Block was received
before getting transactions from last block." -/
theorem C23_session_survives (env : Env T P) (s : NetworkSync T P) :
    session (NetworkSync.stop env s).state = session s ∧
    session (NetworkSync.stopSyncBlocks s).state = session s ∧
    (∀ host port, session (NetworkSync.start env s host port).state = session s) ∧
    session (onOpen env s).state = session s ∧
    (∀ host port,
      session (run env s (restart host port)).1 = session s ∧
      (run env s (restart host port)).1.m_bConnected = true) ∧
    (∀ host port tx, s.m_bBlocksSynched = true →
      (onTx (run env s (restart host port)).1 tx).events =
        [Event.notify (Notification.newTx tx)]) ∧
    (∀ host port tx, s.m_bBlocksSynched = false →
      Notification.newTx tx ∉ emissions (onTx (run env s (restart host port)).1 tx).events) ∧
    (∀ host port merkleBlock, s.m_currentMerkleTxHashes ≠ [] →
      (onMerkleBlock env (run env s (restart host port)).1 merkleBlock).events =
        [Event.notify (Notification.protocolError
          "Block was received before getting transactions from last block.")]) := by
  have hfields : ∀ host port,
      (run env s (restart host port)).1.m_bBlocksSynched = s.m_bBlocksSynched ∧
      (run env s (restart host port)).1.m_currentMerkleTxHashes = s.m_currentMerkleTxHashes := by
    intro host port
    have h := (restart_session env s host port).1
    simp only [session, correlation, Prod.mk.injEq] at h
    exact ⟨h.2.1, h.2.2.2.2.2.1⟩
  refine ⟨stop_session env s, stopSyncBlocks_session s, start_session env s,
    (onOpen_session env s).1, restart_session env s, ?_, ?_, ?_⟩
  · intro host port tx hs
    have hc := (restart_session env s host port).2
    have hs2 := (hfields host port).1.trans hs
    simp [onTx, hc, hs2]
  · intro host port tx hs
    exact onTx_not_synched _ tx tx ((hfields host port).1.trans hs)
  · intro host port merkleBlock hq
    have hc := (restart_session env s host port).2
    have hq2 := (hfields host port).2
    cases hl : s.m_currentMerkleTxHashes with
    | nil => exact absurd hl hq
    | cons a l =>
      rw [hl] at hq2
      simp [onMerkleBlock, merkleProtocolError, hc, hq2]

/-- C23 at a concrete state: a synchroniser stopped while two transactions were expected
answers the first Merkle block of the next session with the protocol error. -/
theorem C23_session_survives_witness :
    (onMerkleBlock memEnv (run memEnv memFetching (restart "host" "")).1
      (mkMerkleBlock (mkHeader 102 101 1020) [])).events =
      [Event.notify (Notification.protocolError
        "Block was received before getting transactions from last block.")] :=
  (C23_session_survives memEnv memFetching).2.2.2.2.2.2.2 "host" ""
    (mkMerkleBlock (mkHeader 102 101 1020) []) (by decide)

end CoinQ
